import Mathlib

/-!
Verification of the iris-core chart layout engine.

The development shallowly embeds the client-side aspect calculation service
(src/services/aspect-service.ts), the collision detection utilities
(src/utils/collision-detection.ts) and the wheel assembler
(src/services/wheel-assembler.ts) of the repository.  JavaScript numbers are
modelled as exact rationals; Math.PI is the exact rational value of the IEEE
double constant.  The trigonometric functions used only to place glyphs on
the circle are abstracted by a parameter structure, since every verified
property holds for an arbitrary cosine and sine implementation.
-/

/-! ## Numeric preliminaries: JavaScript arithmetic on exact rationals -/

/-- Truncation toward zero, as used by the JavaScript remainder operator. -/
def jsTrunc (x : ℚ) : ℤ := if 0 ≤ x then ⌊x⌋ else -⌊-x⌋

/-- The JavaScript remainder operator a % n: the remainder has the sign of the
dividend, a % n = a - n * trunc (a / n). -/
def jsMod (a n : ℚ) : ℚ := a - n * jsTrunc (a / n)

/-- Exact rational value of the IEEE-754 double constant Math.PI
(3.141592653589793115997963468544185161590576171875 = 884279719003555 / 2^48). -/
def jsPI : ℚ := 884279719003555 / 281474976710656

/-! ## Aspect service (src/services/aspect-service.ts)

Data model and operations of the AspectService class, ported line by line.
-/

/-- AspectCore interface: a classified angular relationship. -/
structure AspectCore where
  type : String
  exactAngle : ℚ
  orb : ℚ
  isApplying : Bool
  isExact : Bool
deriving DecidableEq

/-- AspectObjectRef interface (objectType is one of "planet", "angle",
"houseCusp", "point"; the aspect service only ever emits "planet"). -/
structure AspectObjectRef where
  layerId : String
  objectType : String
  objectId : String
deriving DecidableEq

/-- AspectPair interface. -/
structure AspectPair where
  from_ : AspectObjectRef
  to_ : AspectObjectRef
  aspect : AspectCore
deriving DecidableEq

/-- AspectSet interface; kind is "intra_layer" or "inter_layer". -/
structure AspectSet where
  id : String
  label : String
  kind : String
  layerIds : List String
  pairs : List AspectPair
deriving DecidableEq

/-- PlanetPosition interface from the render types: lon, lat, optional
speedLon and retrograde. -/
structure PlanetPosition where
  lon : ℚ
  lat : ℚ
  speedLon : Option ℚ
  retrograde : Option Bool
deriving DecidableEq

/-- LayerPositions interface: planets is a JavaScript object, modelled as an
association list in insertion order with unique keys. -/
structure LayerPositions where
  planets : List (String × PlanetPosition)
deriving DecidableEq

/-- AspectSettings interface. -/
structure AspectSettings where
  orbSettings : List (String × ℚ)
  includeObjects : List String
  onlyMajor : Option Bool
deriving DecidableEq

/-- ASPECT_ANGLES constant: the fixed ordered list of aspect definitions,
conjunction 0, opposition 180, trine 120, square 90, sextile 60. -/
def ASPECT_ANGLES : List (String × ℚ) :=
  [("conjunction", 0), ("opposition", 180), ("trine", 120), ("square", 90), ("sextile", 60)]

/-- Orb lookup orbSettings[aspectName] ?? 8.0: the configured orb for an
aspect type, defaulting to 8 degrees. -/
def lookupOrb (orbSettings : List (String × ℚ)) (name : String) : ℚ :=
  ((orbSettings.find? (fun kv => kv.1 == name)).map (fun kv => kv.2)).getD 8

/-- Math.max(...Object.values(orbSettings), 8.0) from the early-exit test of
calculateAspect. -/
def maxOrb (orbSettings : List (String × ℚ)) : ℚ :=
  (orbSettings.map (fun kv => kv.2)).foldl max 8

/-- Normalization of a signed longitude difference into [-180, 180], as
performed inline by isAspectApplying (subtract 360 if above 180, add 360 if
below -180). -/
def norm180 (x : ℚ) : ℚ := if x > 180 then x - 360 else if x < -180 then x + 360 else x

/-- AspectService.isAspectApplying: decides whether an aspect is applying,
given both longitudes, both speeds, the canonical aspect angle and the folded
current angle. -/
def isAspectApplying (lon1 lon2 speed1 speed2 aspectAngle currentAngle : ℚ) : Bool :=
  let relativeSpeed := speed1 - speed2
  if |relativeSpeed| < 1/100 then
    -- default to applying if very close to exact aspect
    decide (currentAngle < aspectAngle + 1/2)
  else
    let signedDiff := norm180 (lon1 - lon2)
    let currentDistance := |currentAngle - aspectAngle|
    let timeStep : ℚ := 1/10
    let futureSignedDiff := norm180 (signedDiff + relativeSpeed * timeStep)
    let futureAngle := |futureSignedDiff|
    let futureDistance := |futureAngle - aspectAngle|
    decide (futureDistance < currentDistance)

/-- Folded angle difference computed by the first two lines of
calculateAspect: the absolute difference, replaced by 360 minus it when it
exceeds 180. -/
def angleDiffQ (lon1 lon2 : ℚ) : ℚ :=
  let rawDiff := |lon1 - lon2|
  if rawDiff > 180 then 360 - rawDiff else rawDiff

/-- Loop body of calculateAspect over the ordered ASPECT_ANGLES list: return
an AspectCore for the first aspect type whose orb test passes. -/
def aspectScan (angleDiff lon1 lon2 speed1 speed2 : ℚ)
    (orbSettings : List (String × ℚ)) : List (String × ℚ) → Option AspectCore
  | [] => none
  | (aspectName, aspectAngle) :: rest =>
    let orb := lookupOrb orbSettings aspectName
    let orbValue := |angleDiff - aspectAngle|
    if orbValue ≤ orb then
      some { type := aspectName
             exactAngle := aspectAngle
             orb := orbValue
             isApplying := isAspectApplying lon1 lon2 speed1 speed2 aspectAngle angleDiff
             isExact := decide (orbValue < 1/10) }
    else aspectScan angleDiff lon1 lon2 speed1 speed2 orbSettings rest

/-- AspectService.calculateAspect. -/
def calculateAspect (lon1 lon2 speed1 speed2 : ℚ)
    (orbSettings : List (String × ℚ)) : Option AspectCore :=
  let angleDiff := angleDiffQ lon1 lon2
  if angleDiff > 180 + maxOrb orbSettings then none
  else aspectScan angleDiff lon1 lon2 speed1 speed2 orbSettings ASPECT_ANGLES

/-- String capitalization layerId.charAt(0).toUpperCase() + layerId.slice(1)
used for aspect set labels (ASCII). -/
def capFirst (s : String) : String := s.capitalize

/-- Inner loop of computeIntraLayerAspects: pair the head planet with every
later planet, in order. -/
def intraPairsWith (layerId : String) (orbSettings : List (String × ℚ))
    (p1 : String × PlanetPosition) (rest : List (String × PlanetPosition)) : List AspectPair :=
  rest.filterMap (fun p2 =>
    (calculateAspect p1.2.lon p2.2.lon (p1.2.speedLon.getD 0) (p2.2.speedLon.getD 0)
        orbSettings).map (fun aspect =>
      { from_ := { layerId := layerId, objectType := "planet", objectId := p1.1 }
        to_ := { layerId := layerId, objectType := "planet", objectId := p2.1 }
        aspect := aspect }))

/-- Double loop of computeIntraLayerAspects over all index pairs i < j. -/
def intraPairs (layerId : String) (orbSettings : List (String × ℚ)) :
    List (String × PlanetPosition) → List AspectPair
  | [] => []
  | p1 :: rest => intraPairsWith layerId orbSettings p1 rest ++ intraPairs layerId orbSettings rest

/-- AspectService.computeIntraLayerAspects. -/
def computeIntraLayerAspects (layerId : String) (positions : LayerPositions)
    (settings : AspectSettings) : AspectSet :=
  let orbSettings := settings.orbSettings
  let includeObjects := settings.includeObjects
  let planets :=
    if includeObjects.length > 0 then
      positions.planets.filter (fun kv => includeObjects.contains kv.1)
    else positions.planets
  if planets.length < 2 then
    { id := layerId, label := capFirst layerId ++ " Aspects", kind := "intra_layer"
      layerIds := [layerId], pairs := [] }
  else
    { id := layerId, label := capFirst layerId ++ " Aspects", kind := "intra_layer"
      layerIds := [layerId], pairs := intraPairs layerId orbSettings planets }

/-- Cross-layer pair loop of computeInterLayerAspects, skipping identical
object ids. -/
def interPairs (layerIdA layerIdB : String) (orbSettings : List (String × ℚ))
    (planetsA planetsB : List (String × PlanetPosition)) : List AspectPair :=
  planetsA.flatMap (fun p1 =>
    planetsB.filterMap (fun p2 =>
      if p1.1 == p2.1 then none
      else
        (calculateAspect p1.2.lon p2.2.lon (p1.2.speedLon.getD 0) (p2.2.speedLon.getD 0)
            orbSettings).map (fun aspect =>
          { from_ := { layerId := layerIdA, objectType := "planet", objectId := p1.1 }
            to_ := { layerId := layerIdB, objectType := "planet", objectId := p2.1 }
            aspect := aspect })))

/-- AspectService.computeInterLayerAspects. -/
def computeInterLayerAspects (layerIdA layerIdB : String)
    (positionsA positionsB : LayerPositions) (settings : AspectSettings) : AspectSet :=
  let orbSettings := settings.orbSettings
  let includeObjects := settings.includeObjects
  let planetsA :=
    if includeObjects.length > 0 then
      positionsA.planets.filter (fun kv => includeObjects.contains kv.1)
    else positionsA.planets
  let planetsB :=
    if includeObjects.length > 0 then
      positionsB.planets.filter (fun kv => includeObjects.contains kv.1)
    else positionsB.planets
  let label := capFirst layerIdA ++ " - " ++ capFirst layerIdB ++ " Aspects"
  if planetsA.length == 0 || planetsB.length == 0 then
    { id := layerIdA ++ "_" ++ layerIdB, label := label, kind := "inter_layer"
      layerIds := [layerIdA, layerIdB], pairs := [] }
  else
    { id := layerIdA ++ "_" ++ layerIdB, label := label, kind := "inter_layer"
      layerIds := [layerIdA, layerIdB], pairs := interPairs layerIdA layerIdB orbSettings planetsA planetsB }

/-- Assignment into a JavaScript record: replace the value at an existing key,
otherwise append the binding. -/
def recordSet {α : Type} (m : List (String × α)) (k : String) (v : α) : List (String × α) :=
  if m.any (fun kv => kv.1 == k) then
    m.map (fun kv => if kv.1 == k then (k, v) else kv)
  else m ++ [(k, v)]

/-- Unordered layer pairs i < j of computeAllAspectSets. -/
def layerPairsOf : List (String × LayerPositions) → List ((String × LayerPositions) × (String × LayerPositions))
  | [] => []
  | a :: rest => rest.map (fun b => (a, b)) ++ layerPairsOf rest

/-- AspectService.computeAllAspectSets: one intra-layer set per layer plus one
inter-layer set per unordered layer pair, accumulated into a record keyed by
aspect set id. -/
def computeAllAspectSets (layers : List (String × LayerPositions))
    (settings : AspectSettings) : List (String × AspectSet) :=
  let intra := layers.foldl (fun acc kv =>
    recordSet acc kv.1 (computeIntraLayerAspects kv.1 kv.2 settings)) []
  (layerPairsOf layers).foldl (fun acc ab =>
    let s := computeInterLayerAspects ab.1.1 ab.2.1 ab.1.2 ab.2.2 settings
    recordSet acc s.id s) intra

/-! ## Helper lemmas about the aspect service -/

lemma foldl_max_le_init (l : List ℚ) : ∀ a : ℚ, a ≤ l.foldl max a := by
  induction l with
  | nil => intro a; simp
  | cons x xs ih => intro a; exact le_trans (le_max_left a x) (ih (max a x))

lemma maxOrb_ge_eight (orbSettings : List (String × ℚ)) : (8 : ℚ) ≤ maxOrb orbSettings :=
  foldl_max_le_init _ 8

lemma angleDiffQ_le_180 (lon1 lon2 : ℚ) : angleDiffQ lon1 lon2 ≤ 180 := by
  simp only [angleDiffQ]
  split
  · next h => linarith
  · next h => exact not_lt.mp h

/-- Characterization of the scan loop of calculateAspect as a first-match
search over the ordered aspect list. -/
lemma aspectScan_eq_find (d lon1 lon2 s1 s2 : ℚ) (o : List (String × ℚ)) :
    ∀ L : List (String × ℚ),
      aspectScan d lon1 lon2 s1 s2 o L =
        (L.find? (fun na => decide (|d - na.2| ≤ lookupOrb o na.1))).map
          (fun na => { type := na.1, exactAngle := na.2, orb := |d - na.2|,
                       isApplying := isAspectApplying lon1 lon2 s1 s2 na.2 d,
                       isExact := decide (|d - na.2| < 1/10) : AspectCore }) := by
  intro L
  induction L with
  | nil => rfl
  | cons na rest ih =>
    obtain ⟨n, a⟩ := na
    by_cases h : |d - a| ≤ lookupOrb o n
    · simp [aspectScan, List.find?_cons, h]
    · simp [aspectScan, List.find?_cons, h, ih]

lemma calculateAspect_eq_find (lon1 lon2 s1 s2 : ℚ) (o : List (String × ℚ)) :
    calculateAspect lon1 lon2 s1 s2 o =
      (ASPECT_ANGLES.find? (fun na => decide (|angleDiffQ lon1 lon2 - na.2| ≤ lookupOrb o na.1))).map
        (fun na => { type := na.1, exactAngle := na.2, orb := |angleDiffQ lon1 lon2 - na.2|,
                     isApplying := isAspectApplying lon1 lon2 s1 s2 na.2 (angleDiffQ lon1 lon2),
                     isExact := decide (|angleDiffQ lon1 lon2 - na.2| < 1/10) : AspectCore }) := by
  have h8 := maxOrb_ge_eight o
  have hle := angleDiffQ_le_180 lon1 lon2
  unfold calculateAspect
  rw [if_neg (by push_neg; linarith), aspectScan_eq_find]

lemma calculateAspect_some_fields (lon1 lon2 s1 s2 : ℚ) (o : List (String × ℚ))
    (c : AspectCore) (hc : calculateAspect lon1 lon2 s1 s2 o = some c) :
    c.orb = |angleDiffQ lon1 lon2 - c.exactAngle| ∧
    c.orb ≤ lookupOrb o c.type ∧
    c.isApplying = isAspectApplying lon1 lon2 s1 s2 c.exactAngle (angleDiffQ lon1 lon2) := by
  rw [calculateAspect_eq_find] at hc
  rcases hfind : ASPECT_ANGLES.find?
      (fun na => decide (|angleDiffQ lon1 lon2 - na.2| ≤ lookupOrb o na.1)) with _ | na
  · rw [hfind] at hc; exact Option.noConfusion hc
  · rw [hfind] at hc
    simp only [Option.map_some', Option.some.injEq] at hc
    have hp := List.find?_some hfind
    simp only [decide_eq_true_eq] at hp
    subst hc
    exact ⟨rfl, hp, rfl⟩

lemma isAspectApplying_nearZero (lon1 lon2 s1 s2 aspectAngle currentAngle : ℚ)
    (h : |s1 - s2| < 1/100) :
    isAspectApplying lon1 lon2 s1 s2 aspectAngle currentAngle =
      decide (currentAngle < aspectAngle + 1/2) := by
  unfold isAspectApplying
  rw [if_pos h]

lemma norm180_neg (x : ℚ) : norm180 (-x) = -norm180 x := by
  unfold norm180
  rcases lt_trichotomy x 180 with h | h | h <;>
    rcases lt_trichotomy x (-180) with h2 | h2 | h2 <;>
      split_ifs <;> linarith

lemma isAspectApplying_symm (lon1 lon2 s1 s2 aspectAngle currentAngle : ℚ) :
    isAspectApplying lon2 lon1 s2 s1 aspectAngle currentAngle =
      isAspectApplying lon1 lon2 s1 s2 aspectAngle currentAngle := by
  simp only [isAspectApplying]
  rw [abs_sub_comm s2 s1]
  by_cases h : |s1 - s2| < 1/100
  · rw [if_pos h, if_pos h]
  · rw [if_neg h, if_neg h]
    have key : norm180 (norm180 (lon2 - lon1) + (s2 - s1) * (1/10))
        = -(norm180 (norm180 (lon1 - lon2) + (s1 - s2) * (1/10))) := by
      rw [show lon2 - lon1 = -(lon1 - lon2) by ring, norm180_neg,
        show -norm180 (lon1 - lon2) + (s2 - s1) * (1/10)
            = -(norm180 (lon1 - lon2) + (s1 - s2) * (1/10)) by ring,
        norm180_neg]
    rw [key, abs_neg]

/-! ## Claim theorems about the aspect service -/

/-- C1: calculateAspect folds the absolute longitude difference to at most
180 degrees and tests the candidate aspect types in the fixed priority order
given by ASPECT_ANGLES (conjunction 0, opposition 180, trine 120, square 90,
sextile 60), each with its configured orb or a default of 8 degrees; it
returns exactly the first type of the list whose folded distance from the
exact angle is at most the orb (first match, not best match), with the orb
deviation reported, and the Option result carries at most one aspect per
pair. -/
theorem calculateAspect_priority_first_match (lon1 lon2 speed1 speed2 : ℚ)
    (orbSettings : List (String × ℚ)) :
    angleDiffQ lon1 lon2 ≤ 180 ∧
    (calculateAspect lon1 lon2 speed1 speed2 orbSettings).map
        (fun c => (c.type, c.exactAngle, c.orb))
      = (ASPECT_ANGLES.find?
          (fun na => decide (|angleDiffQ lon1 lon2 - na.2| ≤ lookupOrb orbSettings na.1))).map
          (fun na => (na.1, na.2, |angleDiffQ lon1 lon2 - na.2|)) := by
  refine ⟨angleDiffQ_le_180 _ _, ?_⟩
  rw [calculateAspect_eq_find]
  rcases hf : ASPECT_ANGLES.find?
      (fun na => decide (|angleDiffQ lon1 lon2 - na.2| ≤ lookupOrb orbSettings na.1)) with _ | na
  · rw [hf]; rfl
  · rw [hf]; rfl

/-- C5: calculateAspect is symmetric in its two bodies: swapping the
longitudes and swapping the speeds yields the identical Option AspectCore,
in particular the same aspect type, exact angle and orb magnitude. -/
theorem calculateAspect_symm (a b s1 s2 : ℚ) (o : List (String × ℚ)) :
    calculateAspect a b s1 s2 o = calculateAspect b a s2 s1 o := by
  rw [calculateAspect_eq_find, calculateAspect_eq_find]
  have hd : angleDiffQ b a = angleDiffQ a b := by
    simp only [angleDiffQ]; rw [abs_sub_comm]
  rw [hd]
  congr 1
  funext na
  rw [isAspectApplying_symm]

/-- C4 counterexample: at longitudes 0 and 115 with both speeds zero and
default orbs, a trine (exact angle 120) is detected with relative speed 0 and
the applying flag is true, although the folded angle 115 is five degrees
before the exact angle, far outside any half-degree window: the flag is not
"true exactly when the current angle is within 0.5 degrees before the exact
angle". -/
theorem isApplying_window_counterexample :
    calculateAspect 0 115 0 0 [] =
      some { type := "trine", exactAngle := 120, orb := 5, isApplying := true, isExact := false } ∧
    ¬ ((120 : ℚ) - 1/2 ≤ angleDiffQ 0 115) := by
  constructor
  · norm_num [calculateAspect, angleDiffQ, maxOrb, aspectScan, lookupOrb, ASPECT_ANGLES,
      isAspectApplying]
  · norm_num [angleDiffQ]

/-- C4 amended: for every detected aspect whose relative speed is below 0.01
degrees per day, the applying flag is true exactly when the folded current
angle is strictly less than the exact angle plus 0.5 degrees (a one-sided
threshold: any folded angle short of exactAngle + 0.5 counts as applying,
however far before the exact angle it lies). -/
theorem isApplying_nearZeroSpeed_threshold (lon1 lon2 s1 s2 : ℚ) (o : List (String × ℚ))
    (c : AspectCore) (hc : calculateAspect lon1 lon2 s1 s2 o = some c)
    (hs : |s1 - s2| < 1/100) :
    c.isApplying = decide (angleDiffQ lon1 lon2 < c.exactAngle + 1/2) := by
  obtain ⟨-, -, happ⟩ := calculateAspect_some_fields lon1 lon2 s1 s2 o c hc
  rw [happ, isAspectApplying_nearZero _ _ _ _ _ _ hs]

/-- Concrete AspectCore produced by calculateAspect 0 115 0 0 [], used by the
witness below. -/
def trineAt115 : AspectCore :=
  { type := "trine", exactAngle := 120, orb := 5, isApplying := true, isExact := false }

/-- Witness for the amended C4 theorem at the concrete trine input. -/
theorem isApplying_nearZeroSpeed_threshold_witness :
    trineAt115.isApplying = decide (angleDiffQ 0 115 < trineAt115.exactAngle + 1/2) :=
  isApplying_nearZeroSpeed_threshold 0 115 0 0 [] trineAt115
    (by norm_num [calculateAspect, angleDiffQ, maxOrb, aspectScan, lookupOrb, ASPECT_ANGLES,
      isAspectApplying, trineAt115])
    (by norm_num)

/-! ## Orb invariant lifting lemmas -/

lemma calculateAspect_orb_le (lon1 lon2 s1 s2 : ℚ) (o : List (String × ℚ))
    (c : AspectCore) (hc : calculateAspect lon1 lon2 s1 s2 o = some c) :
    c.orb ≤ lookupOrb o c.type :=
  (calculateAspect_some_fields lon1 lon2 s1 s2 o c hc).2.1

lemma intraPairsWith_orb_le (layerId : String) (o : List (String × ℚ))
    (p1 : String × PlanetPosition) (rest : List (String × PlanetPosition))
    (pair : AspectPair) (h : pair ∈ intraPairsWith layerId o p1 rest) :
    pair.aspect.orb ≤ lookupOrb o pair.aspect.type := by
  simp only [intraPairsWith, List.mem_filterMap] at h
  obtain ⟨p2, -, hmap⟩ := h
  rcases hc : calculateAspect p1.2.lon p2.2.lon (p1.2.speedLon.getD 0) (p2.2.speedLon.getD 0) o
    with _ | aspect
  · rw [hc] at hmap; exact Option.noConfusion hmap
  · rw [hc] at hmap
    simp only [Option.map_some', Option.some.injEq] at hmap
    subst hmap
    exact calculateAspect_orb_le _ _ _ _ _ _ hc

lemma intraPairs_orb_le (layerId : String) (o : List (String × ℚ))
    (planets : List (String × PlanetPosition)) (pair : AspectPair)
    (h : pair ∈ intraPairs layerId o planets) :
    pair.aspect.orb ≤ lookupOrb o pair.aspect.type := by
  induction planets with
  | nil => exact absurd h (by simp [intraPairs])
  | cons p1 rest ih =>
    rw [intraPairs, List.mem_append] at h
    rcases h with h | h
    · exact intraPairsWith_orb_le layerId o p1 rest pair h
    · exact ih h

lemma interPairs_orb_le (layerIdA layerIdB : String) (o : List (String × ℚ))
    (planetsA planetsB : List (String × PlanetPosition)) (pair : AspectPair)
    (h : pair ∈ interPairs layerIdA layerIdB o planetsA planetsB) :
    pair.aspect.orb ≤ lookupOrb o pair.aspect.type := by
  simp only [interPairs, List.mem_flatMap, List.mem_filterMap] at h
  obtain ⟨p1, -, p2, -, hmap⟩ := h
  by_cases hid : p1.1 == p2.1
  · rw [if_pos hid] at hmap; exact Option.noConfusion hmap
  · rw [if_neg hid] at hmap
    rcases hc : calculateAspect p1.2.lon p2.2.lon (p1.2.speedLon.getD 0) (p2.2.speedLon.getD 0) o
      with _ | aspect
    · rw [hc] at hmap; exact Option.noConfusion hmap
    · rw [hc] at hmap
      simp only [Option.map_some', Option.some.injEq] at hmap
      subst hmap
      exact calculateAspect_orb_le _ _ _ _ _ _ hc

lemma computeIntra_orb_le (layerId : String) (positions : LayerPositions)
    (settings : AspectSettings) (pair : AspectPair)
    (h : pair ∈ (computeIntraLayerAspects layerId positions settings).pairs) :
    pair.aspect.orb ≤ lookupOrb settings.orbSettings pair.aspect.type := by
  unfold computeIntraLayerAspects at h
  simp only at h
  split at h <;> try split at h
  all_goals
    first
      | exact intraPairs_orb_le _ _ _ _ h
      | simp at h

lemma computeInter_orb_le (layerIdA layerIdB : String) (pA pB : LayerPositions)
    (settings : AspectSettings) (pair : AspectPair)
    (h : pair ∈ (computeInterLayerAspects layerIdA layerIdB pA pB settings).pairs) :
    pair.aspect.orb ≤ lookupOrb settings.orbSettings pair.aspect.type := by
  unfold computeInterLayerAspects at h
  simp only at h
  split at h <;> try split at h
  all_goals
    first
      | exact interPairs_orb_le _ _ _ _ _ _ h
      | simp at h

lemma recordSet_forall {α : Type} (P : α → Prop) (m : List (String × α)) (k : String) (v : α)
    (hm : ∀ kv ∈ m, P kv.2) (hv : P v) : ∀ kv ∈ recordSet m k v, P kv.2 := by
  intro kv hkv
  unfold recordSet at hkv
  split at hkv
  · rw [List.mem_map] at hkv
    obtain ⟨kv', hkv', heq⟩ := hkv
    by_cases hk : kv'.1 == k
    · rw [if_pos hk] at heq; subst heq; exact hv
    · rw [if_neg hk] at heq; subst heq; exact hm _ hkv'
  · rw [List.mem_append] at hkv
    rcases hkv with hkv | hkv
    · exact hm _ hkv
    · simp only [List.mem_singleton] at hkv; subst hkv; exact hv

lemma foldl_recordSet_forall {α β : Type} (P : α → Prop) (key : β → String) (val : β → α)
    (hval : ∀ x, P (val x)) :
    ∀ (l : List β) (acc : List (String × α)), (∀ kv ∈ acc, P kv.2) →
      ∀ kv ∈ l.foldl (fun acc x => recordSet acc (key x) (val x)) acc, P kv.2 := by
  intro l
  induction l with
  | nil => intro acc hacc; exact hacc
  | cons x xs ih =>
    intro acc hacc
    exact ih _ (recordSet_forall P acc (key x) (val x) hacc (hval x))

/-- C6: every AspectPair contained in any AspectSet returned by
computeIntraLayerAspects, computeInterLayerAspects or computeAllAspectSets
has orb deviation at most the configured orb for its aspect type (8 degrees
when none is configured, via lookupOrb), and a pair of longitudes matching no
aspect type within its orb yields no aspect at all. -/
theorem aspect_sets_orb_invariant :
    (∀ (layerId : String) (positions : LayerPositions) (settings : AspectSettings)
        (pair : AspectPair),
        pair ∈ (computeIntraLayerAspects layerId positions settings).pairs →
        pair.aspect.orb ≤ lookupOrb settings.orbSettings pair.aspect.type) ∧
    (∀ (layerIdA layerIdB : String) (pA pB : LayerPositions) (settings : AspectSettings)
        (pair : AspectPair),
        pair ∈ (computeInterLayerAspects layerIdA layerIdB pA pB settings).pairs →
        pair.aspect.orb ≤ lookupOrb settings.orbSettings pair.aspect.type) ∧
    (∀ (layers : List (String × LayerPositions)) (settings : AspectSettings)
        (ks : String × AspectSet), ks ∈ computeAllAspectSets layers settings →
        ∀ pair ∈ ks.2.pairs,
        pair.aspect.orb ≤ lookupOrb settings.orbSettings pair.aspect.type) ∧
    (∀ (lon1 lon2 s1 s2 : ℚ) (orbSettings : List (String × ℚ)),
        (∀ na ∈ ASPECT_ANGLES, lookupOrb orbSettings na.1 < |angleDiffQ lon1 lon2 - na.2|) →
        calculateAspect lon1 lon2 s1 s2 orbSettings = none) := by
  refine ⟨computeIntra_orb_le, computeInter_orb_le, ?_, ?_⟩
  · intro layers settings ks hks
    unfold computeAllAspectSets at hks
    have h1 := foldl_recordSet_forall
      (fun s : AspectSet => ∀ pair ∈ s.pairs,
        pair.aspect.orb ≤ lookupOrb settings.orbSettings pair.aspect.type)
      (fun kv : String × LayerPositions => kv.1)
      (fun kv => computeIntraLayerAspects kv.1 kv.2 settings)
      (fun kv pair hp => computeIntra_orb_le _ _ _ _ hp) layers [] (by simp)
    have h2 := foldl_recordSet_forall
      (fun s : AspectSet => ∀ pair ∈ s.pairs,
        pair.aspect.orb ≤ lookupOrb settings.orbSettings pair.aspect.type)
      (fun ab : (String × LayerPositions) × String × LayerPositions =>
        (computeInterLayerAspects ab.1.1 ab.2.1 ab.1.2 ab.2.2 settings).id)
      (fun ab => computeInterLayerAspects ab.1.1 ab.2.1 ab.1.2 ab.2.2 settings)
      (fun ab pair hp => computeInter_orb_le _ _ _ _ _ _ hp)
      (layerPairsOf layers) _ h1
    exact h2 ks hks
  · intro lon1 lon2 s1 s2 orbSettings hall
    rw [calculateAspect_eq_find]
    have hnone : ASPECT_ANGLES.find?
        (fun na => decide (|angleDiffQ lon1 lon2 - na.2| ≤ lookupOrb orbSettings na.1)) = none := by
      rw [List.find?_eq_none]
      intro na hna
      simp only [decide_eq_true_eq, not_le]
      exact hall na hna
    rw [hnone]; rfl

/-- Concrete layer with a sun at longitude 0 and a moon at longitude 120. -/
def natalPositions : LayerPositions :=
  ⟨[("sun", { lon := 0, lat := 0, speedLon := none, retrograde := none }),
    ("moon", { lon := 120, lat := 0, speedLon := none, retrograde := none })]⟩

/-- Concrete exact trine pair produced for natalPositions. -/
def sunMoonTrine : AspectPair :=
  { from_ := { layerId := "natal", objectType := "planet", objectId := "sun" }
    to_ := { layerId := "natal", objectType := "planet", objectId := "moon" }
    aspect := { type := "trine", exactAngle := 120, orb := 0, isApplying := true, isExact := true } }

/-- Witness for the C6 invariant at a concrete intra-layer computation. -/
theorem aspect_sets_orb_invariant_witness :
    sunMoonTrine.aspect.orb ≤ lookupOrb [] sunMoonTrine.aspect.type :=
  aspect_sets_orb_invariant.1 "natal" natalPositions
    { orbSettings := [], includeObjects := [], onlyMajor := none } sunMoonTrine
    (by norm_num [computeIntraLayerAspects, intraPairs, intraPairsWith, calculateAspect,
      angleDiffQ, maxOrb, aspectScan, lookupOrb, ASPECT_ANGLES, isAspectApplying,
      natalPositions, sunMoonTrine])

/-! ## House lookup (getHouseIndex in src/services/wheel-assembler.ts) -/

/-- Digit-prefix accumulator of the JavaScript parseInt radix-10 semantics:
consume the longest digit prefix, returning none when no digit was read. -/
def parseDigits : List Char → Option ℕ → Option ℕ
  | [], acc => acc
  | c :: rest, acc =>
    if c.isDigit then parseDigits rest (some ((acc.getD 0) * 10 + (c.toNat - 48)))
    else acc

/-- JavaScript parseInt(s, 10): skip leading whitespace, read an optional
sign and then the longest digit prefix; NaN (no digit) is modelled as none. -/
def jsParseInt (s : String) : Option ℤ :=
  let chars := s.data.dropWhile (fun c => c == ' ' || c == '\t' || c == '\n' || c == '\r')
  match chars with
  | '-' :: rest => (parseDigits rest none).map (fun n => -(n : ℤ))
  | '+' :: rest => (parseDigits rest none).map (fun n => (n : ℤ))
  | rest => (parseDigits rest none).map (fun n => (n : ℤ))

/-- Longitude normalization used by getHouseIndex: JavaScript x % 360
followed by adding 360 when the remainder is negative. -/
def norm360 (x : ℚ) : ℚ := let m := jsMod x 360; if m < 0 then m + 360 else m

/-- Cusp-key filtering loop of getHouseIndex: keep entries whose key parses
to a house number between 1 and 12, paired with the normalized cusp. -/
def validCusps (houses : List (String × ℚ)) : List (ℤ × ℚ) :=
  houses.filterMap (fun kv =>
    match jsParseInt kv.1 with
    | some houseNum =>
      if 1 ≤ houseNum ∧ houseNum ≤ 12 then some (houseNum, norm360 kv.2) else none
    | none => none)

/-- Interval test of the getHouseIndex loop: when the next cusp is
numerically smaller than the current one the interval wraps across 0/360. -/
def inHouseInterval (lon currentCusp nextCusp : ℚ) : Bool :=
  if nextCusp < currentCusp then decide (lon ≥ currentCusp) || decide (lon < nextCusp)
  else decide (currentCusp ≤ lon) && decide (lon < nextCusp)

/-- getHouseIndex: cusp-based house lookup, null for an empty or invalid cusp
map, otherwise the house number minus one of the first sorted cusp interval
containing the normalized longitude, with a final fallback of house index 0.
The successor of the last sorted cusp is the first one (index (i+1) mod
length), realized by zipping with the rotated list. -/
def getHouseIndex (planetLon : ℚ) (houses : List (String × ℚ)) : Option ℤ :=
  if houses.isEmpty then none
  else
    let planetLonNorm := norm360 planetLon
    let houseCusps := validCusps houses
    if houseCusps.isEmpty then none
    else
      let sorted := List.insertionSort (fun a b : ℤ × ℚ => a.2 ≤ b.2) houseCusps
      match (sorted.zip (sorted.rotateLeft 1)).find?
          (fun cn => inHouseInterval planetLonNorm cn.1.2 cn.2.2) with
      | some cn => some (cn.1.1 - 1)
      | none => some 0

/-- Mathematical normalization of a longitude into [0, 360), following the
wording of the specification. -/
def specNorm360 (x : ℚ) : ℚ := x - 360 * ⌊x / 360⌋

/-- House lookup as worded by the specification: normalize the longitude into
[0, 360), keep the cusps whose key parses to a house number 1..12 (none left
means no house data), sort them ascending, and return cusp number minus one
for the first interval containing the longitude, an interval whose next cusp
is numerically smaller than the current one being the wraparound interval
crossing 0/360; fall back to house index 0 when no interval matches. -/
def houseLookupSpec (planetLon : ℚ) (houses : List (String × ℚ)) : Option ℤ :=
  let cusps := houses.filterMap (fun kv =>
    (jsParseInt kv.1).bind (fun n =>
      if 1 ≤ n ∧ n ≤ 12 then some (n, specNorm360 kv.2) else none))
  if cusps = [] then none
  else
    let sorted := List.insertionSort (fun a b : ℤ × ℚ => a.2 ≤ b.2) cusps
    let lon := specNorm360 planetLon
    some ((((sorted.zip (sorted.rotateLeft 1)).find?
      (fun cn => inHouseInterval lon cn.1.2 cn.2.2)).map (fun cn => cn.1.1 - 1)).getD 0)

/-- Evenly spaced cusp map 1 at 10, 2 at 40, up to 12 at 340. -/
def evenCusps : List (String × ℚ) :=
  [("1", 10), ("2", 40), ("3", 70), ("4", 100), ("5", 130), ("6", 160),
   ("7", 190), ("8", 220), ("9", 250), ("10", 280), ("11", 310), ("12", 340)]

lemma norm360_eq_specNorm360 (x : ℚ) : norm360 x = specNorm360 x := by
  simp only [norm360, specNorm360, jsMod, jsTrunc]
  by_cases h : 0 ≤ x / 360
  · rw [if_pos h]
    have hfl : (⌊x / 360⌋ : ℚ) ≤ x / 360 := Int.floor_le _
    rw [if_neg (by push_neg; linarith)]
  · rw [if_neg h]
    push_neg at h
    by_cases hint : (⌊x / 360⌋ : ℚ) = x / 360
    · have hneg : -(x / 360) = ((-⌊x / 360⌋ : ℤ) : ℚ) := by push_cast; rw [hint]
      rw [hneg, Int.floor_intCast]
      have hx : x = 360 * (⌊x / 360⌋ : ℚ) := by linarith
      rw [if_neg (by push_cast; linarith)]
      push_cast
      linarith
    · have h1 : (⌊x / 360⌋ : ℚ) < x / 360 := lt_of_le_of_ne (Int.floor_le _) hint
      have h2 : (⌊-(x / 360)⌋ : ℚ) ≤ -(x / 360) := Int.floor_le _
      have h3 : -(x / 360) < (⌊-(x / 360)⌋ : ℚ) + 1 := Int.lt_floor_add_one _
      have hlt : x / 360 < -(⌊-(x / 360)⌋ : ℚ) := by
        rcases lt_or_eq_of_le h2 with h4 | h4
        · linarith
        · exfalso
          have : (⌊x / 360⌋ : ℚ) = x / 360 := by
            have hxeq : x / 360 = ((-⌊-(x / 360)⌋ : ℤ) : ℚ) := by push_cast; linarith
            rw [hxeq, Int.floor_intCast]
          exact hint this
      have hfloor : ⌊x / 360⌋ = -(⌊-(x / 360)⌋ + 1) := by
        apply Int.floor_eq_iff.mpr
        constructor
        · push_cast; linarith
        · push_cast; linarith
      rw [if_pos (by push_cast; linarith), hfloor]
      push_cast
      ring

lemma norm360_mem_Ico (x : ℚ) : 0 ≤ norm360 x ∧ norm360 x < 360 := by
  rw [norm360_eq_specNorm360]
  unfold specNorm360
  constructor
  · have h := Int.floor_le (x / 360)
    linarith
  · have h := Int.lt_floor_add_one (x / 360)
    linarith

lemma validCusps_eq_spec (houses : List (String × ℚ)) :
    validCusps houses = houses.filterMap (fun kv =>
      (jsParseInt kv.1).bind (fun n =>
        if 1 ≤ n ∧ n ≤ 12 then some (n, specNorm360 kv.2) else none)) := by
  unfold validCusps
  congr 1
  funext kv
  cases hj : jsParseInt kv.1 <;> simp [hj, norm360_eq_specNorm360]

lemma getHouseIndex_eq_spec (planetLon : ℚ) (houses : List (String × ℚ)) :
    getHouseIndex planetLon houses = houseLookupSpec planetLon houses := by
  unfold getHouseIndex houseLookupSpec
  rw [← validCusps_eq_spec, ← norm360_eq_specNorm360]
  by_cases hh : houses.isEmpty
  · rw [if_pos hh]
    have h0 : houses = [] := List.isEmpty_iff.mp hh
    subst h0
    simp [validCusps]
  · rw [if_neg hh]
    by_cases hc : (validCusps houses).isEmpty
    · rw [if_pos hc, if_pos (List.isEmpty_iff.mp hc)]
    · rw [if_neg hc, if_neg (fun h => hc (List.isEmpty_iff.mpr h))]
      dsimp only
      rcases hf : ((List.insertionSort (fun a b : ℤ × ℚ => a.2 ≤ b.2) (validCusps houses)).zip
          ((List.insertionSort (fun a b : ℤ × ℚ => a.2 ≤ b.2) (validCusps houses)).rotateLeft 1)).find?
          (fun cn => inHouseInterval (norm360 planetLon) cn.1.2 cn.2.2) with _ | cn
      · rw [hf]; rfl
      · rw [hf]; rfl

lemma validCusps_evenCusps : validCusps evenCusps =
    [(1,10),(2,40),(3,70),(4,100),(5,130),(6,160),(7,190),(8,220),(9,250),(10,280),(11,310),(12,340)] := by
  norm_num [validCusps, evenCusps, norm360, jsMod, jsTrunc, List.filterMap_cons, List.filterMap_nil,
    (by decide : jsParseInt "1" = some 1), (by decide : jsParseInt "2" = some 2),
    (by decide : jsParseInt "3" = some 3), (by decide : jsParseInt "4" = some 4),
    (by decide : jsParseInt "5" = some 5), (by decide : jsParseInt "6" = some 6),
    (by decide : jsParseInt "7" = some 7), (by decide : jsParseInt "8" = some 8),
    (by decide : jsParseInt "9" = some 9), (by decide : jsParseInt "10" = some 10),
    (by decide : jsParseInt "11" = some 11), (by decide : jsParseInt "12" = some 12)]

lemma getHouseIndex_eval_25 : getHouseIndex 25 evenCusps = some 0 := by
  simp only [getHouseIndex, validCusps_evenCusps]
  norm_num [List.insertionSort, List.orderedInsert, List.rotateLeft, inHouseInterval,
    norm360, jsMod, jsTrunc, evenCusps, List.find?]

lemma getHouseIndex_eval_5 : getHouseIndex 5 evenCusps = some 11 := by
  simp only [getHouseIndex, validCusps_evenCusps]
  norm_num [List.insertionSort, List.orderedInsert, List.rotateLeft, inHouseInterval,
    norm360, jsMod, jsTrunc, evenCusps, List.find?]

/-- C8: house lookup sorts the normalized valid cusps ascending and returns
cusp number minus one for the first interval containing the normalized
longitude, treating a next cusp numerically smaller than the current cusp as
the wraparound interval crossing 0/360 (getHouseIndex coincides with the
spec-worded houseLookupSpec); in particular, with cusps evenly spaced 1 at
10 degrees through 12 at 340 degrees, longitude 25 maps to house index 0 and
longitude 5 maps to house index 11. -/
theorem getHouseIndex_sorted_interval_lookup :
    (∀ (planetLon : ℚ) (houses : List (String × ℚ)),
      getHouseIndex planetLon houses = houseLookupSpec planetLon houses) ∧
    getHouseIndex 25 evenCusps = some 0 ∧
    getHouseIndex 5 evenCusps = some 11 :=
  ⟨getHouseIndex_eq_spec, getHouseIndex_eval_25, getHouseIndex_eval_5⟩

lemma getHouseIndex_eq_none_iff (planetLon : ℚ) (houses : List (String × ℚ)) :
    getHouseIndex planetLon houses = none ↔ validCusps houses = [] := by
  unfold getHouseIndex
  by_cases hh : houses.isEmpty
  · rw [if_pos hh]
    have h0 : houses = [] := List.isEmpty_iff.mp hh
    subst h0
    simp [validCusps]
  · rw [if_neg hh]
    by_cases hc : (validCusps houses).isEmpty
    · rw [if_pos hc]
      simp [List.isEmpty_iff.mp hc]
    · rw [if_neg hc]
      dsimp only
      constructor
      · intro h
        split at h <;> exact Option.noConfusion h
      · intro h
        exact absurd (List.isEmpty_iff.mpr h) hc

lemma validCusps_eq_nil_iff (houses : List (String × ℚ)) :
    validCusps houses = [] ↔
      ∀ kv ∈ houses, ∀ n : ℤ, jsParseInt kv.1 = some n → ¬(1 ≤ n ∧ n ≤ 12) := by
  unfold validCusps
  rw [List.filterMap_eq_nil_iff]
  constructor
  · intro h kv hkv n hn hcond
    have hkv2 := h kv hkv
    rw [hn] at hkv2
    simp [hcond] at hkv2
  · intro h kv hkv
    cases hj : jsParseInt kv.1 with
    | none => rfl
    | some n =>
      simp [h kv hkv n hj]

lemma validCusps_bounds (houses : List (String × ℚ)) (nc : ℤ × ℚ)
    (h : nc ∈ validCusps houses) : 1 ≤ nc.1 ∧ nc.1 ≤ 12 := by
  unfold validCusps at h
  rw [List.mem_filterMap] at h
  obtain ⟨kv, -, hkv⟩ := h
  cases hj : jsParseInt kv.1 with
  | none => rw [hj] at hkv; exact Option.noConfusion hkv
  | some n =>
    rw [hj] at hkv
    by_cases hcond : 1 ≤ n ∧ n ≤ 12
    · simp only [if_pos hcond, Option.some.injEq] at hkv
      subst hkv
      exact hcond
    · simp [hcond] at hkv

lemma getHouseIndex_some_range (planetLon : ℚ) (houses : List (String × ℚ)) (k : ℤ)
    (h : getHouseIndex planetLon houses = some k) : 0 ≤ k ∧ k ≤ 11 := by
  unfold getHouseIndex at h
  by_cases hh : houses.isEmpty
  · rw [if_pos hh] at h; exact Option.noConfusion h
  · rw [if_neg hh] at h
    by_cases hc : (validCusps houses).isEmpty
    · rw [if_pos hc] at h; exact Option.noConfusion h
    · rw [if_neg hc] at h
      dsimp only at h
      rcases hf : ((List.insertionSort (fun a b : ℤ × ℚ => a.2 ≤ b.2) (validCusps houses)).zip
          ((List.insertionSort (fun a b : ℤ × ℚ => a.2 ≤ b.2) (validCusps houses)).rotateLeft 1)).find?
          (fun cn => inHouseInterval (norm360 planetLon) cn.1.2 cn.2.2) with _ | cn
      · rw [hf] at h
        cases h
        norm_num
      · rw [hf] at h
        cases h
        have hmem := List.mem_of_find?_eq_some hf
        have hmem1 : cn.1 ∈ List.insertionSort (fun a b : ℤ × ℚ => a.2 ≤ b.2) (validCusps houses) :=
          (List.of_mem_zip hmem).1
        have hmem2 : cn.1 ∈ validCusps houses :=
          (List.perm_insertionSort (fun a b : ℤ × ℚ => a.2 ≤ b.2) (validCusps houses)).mem_iff.mp hmem1
      

        have hb := validCusps_bounds houses cn.1 hmem2
        omega

/-- C10: getHouseIndex returns none exactly when no cusp entry has a key
parsing to a house number between 1 and 12 (in particular for an empty cusp
map); otherwise, for every longitude, including negative ones, the longitude
is normalized into [0, 360) and an integer house index between 0 and 11 is
returned, with house index 0 as the fallback when no sorted-cusp interval
matches the normalized longitude. -/
theorem getHouseIndex_none_and_range (planetLon : ℚ) (houses : List (String × ℚ)) :
    (getHouseIndex planetLon houses = none ↔
      ∀ kv ∈ houses, ∀ n : ℤ, jsParseInt kv.1 = some n → ¬(1 ≤ n ∧ n ≤ 12)) ∧
    (0 ≤ norm360 planetLon ∧ norm360 planetLon < 360) ∧
    (∀ k : ℤ, getHouseIndex planetLon houses = some k → 0 ≤ k ∧ k ≤ 11) ∧
    (validCusps houses ≠ [] →
      ((List.insertionSort (fun a b : ℤ × ℚ => a.2 ≤ b.2) (validCusps houses)).zip
          ((List.insertionSort (fun a b : ℤ × ℚ => a.2 ≤ b.2) (validCusps houses)).rotateLeft 1)).find?
          (fun cn => inHouseInterval (norm360 planetLon) cn.1.2 cn.2.2) = none →
      getHouseIndex planetLon houses = some 0) := by
  refine ⟨?_, norm360_mem_Ico planetLon, getHouseIndex_some_range planetLon houses, ?_⟩
  · rw [getHouseIndex_eq_none_iff, validCusps_eq_nil_iff]
  · intro hne hfind
    unfold getHouseIndex
    have hh : ¬ houses.isEmpty := by
      intro hemp
      apply hne
      have h0 : houses = [] := List.isEmpty_iff.mp hemp
      subst h0
      simp [validCusps]
    rw [if_neg hh, if_neg (fun hc => hne (List.isEmpty_iff.mp hc))]
    dsimp only
    rw [hfind]

/-- Witness for C10: the in-range conjunct evaluated at longitude 25 over the
even cusp map, where getHouseIndex returns house index 0. -/
theorem getHouseIndex_none_and_range_witness : (0 : ℤ) ≤ 0 ∧ (0 : ℤ) ≤ 11 :=
  (getHouseIndex_none_and_range 25 evenCusps).2.2.1 0 getHouseIndex_eval_25

/-! ## Collision detection (src/utils/collision-detection.ts)

The cosine and sine used to place points on the circle are abstracted by a
TrigModel parameter; every theorem below holds for an arbitrary model, hence
in particular for the floating-point implementations of the source.
-/

/-- Abstract trigonometric model: cosine and sine on radian arguments. -/
structure TrigModel where
  cos : ℚ → ℚ
  sin : ℚ → ℚ

/-- LocatedPoint interface. -/
structure LocatedPoint where
  id : String
  x : ℚ
  y : ℚ
  r : ℚ
  angle : ℚ
  originalAngle : ℚ
  pointer : Option ℚ
deriving DecidableEq

/-- CollisionConfig interface. -/
structure CollisionConfig where
  enabled : Bool
  radius : ℚ
  scale : ℚ
  debug : Option Bool
  shiftInDegrees : Option ℚ
deriving DecidableEq

/-- Universe interface: circle context for collision detection. -/
structure Universe where
  cx : ℚ
  cy : ℚ
  r : ℚ
deriving DecidableEq

/-- getPointPosition: position of a point on a circle, angle in degrees
converted to radians through Math.PI. -/
def getPointPosition (τ : TrigModel) (cx cy radius angle shiftInDegrees : ℚ) : ℚ × ℚ :=
  let angleInRadians := (angle - shiftInDegrees) * jsPI / 180
  (cx + radius * τ.cos angleInRadians, cy + radius * τ.sin angleInRadians)

/-- isCollision: the source compares sqrt (vx * vx + vy * vy) with the sum of
the radii; squaring both sides (with the sign guard 0 ≤ totalRadii, since a
square root is never below a negative bound) gives the exact rational
equivalent of the floating comparison. -/
def isCollision (circle1 circle2 : LocatedPoint) : Bool :=
  let vx := circle1.x - circle2.x
  let vy := circle1.y - circle2.y
  let totalRadii := circle1.r + circle2.r
  decide (0 ≤ totalRadii ∧ vx * vx + vy * vy ≤ totalRadii * totalRadii)

/-- placePointsInCollision: separate two colliding points by a fixed one
degree nudge; the point whose reference pointer is smaller moves down, the
other up, after rotating both reference pointers by 180 degrees when they
straddle the 0/360 boundary; both angles are normalized into 0..360. -/
def placePointsInCollision (p1 p2 : LocatedPoint) : LocatedPoint × LocatedPoint :=
  let step : ℚ := 1
  let adjustedP1Pointer := p1.pointer.getD p1.angle
  let adjustedP2Pointer := p2.pointer.getD p2.angle
  let rotate := |adjustedP1Pointer - adjustedP2Pointer| > 180
  let a1 := if rotate then jsMod (adjustedP1Pointer + 180) 360 else adjustedP1Pointer
  let a2 := if rotate then jsMod (adjustedP2Pointer + 180) 360 else adjustedP2Pointer
  let angles := if a1 ≤ a2 then (p1.angle - step, p2.angle + step)
    else (p1.angle + step, p2.angle - step)
  ({ p1 with angle := jsMod (angles.1 + 360) 360 },
   { p2 with angle := jsMod (angles.2 + 360) 360 })

/-- Search of the assemble collision loop: locate the first already placed
point colliding with the new point, splitting the list around it. -/
def splitFirstCollision (point : LocatedPoint) :
    List LocatedPoint → Option (List LocatedPoint × LocatedPoint × List LocatedPoint)
  | [] => none
  | q :: rest =>
    if isCollision q point then some ([], q, rest)
    else (splitFirstCollision point rest).map (fun bca => (q :: bca.1, bca.2.1, bca.2.2))

/-- Failure conditions of the collision resolver: the fatal unresolved planet
collision error thrown by the source, and exhaustion of the fuel bounding the
recursion depth of the shallow embedding. -/
inductive CollisionError where
  | unresolvedPlanetCollision
  | fuelExhausted
deriving DecidableEq

/-- assemble: place a new point into the list of located points, resolving
collisions recursively; the fuel argument bounds the recursion depth of the
source (which recurses without a structural bound). -/
def assemble (τ : TrigModel) : ℕ → List LocatedPoint → LocatedPoint → Universe →
    CollisionConfig → Except CollisionError (List LocatedPoint)
  | 0, _, _, _, _ => .error .fuelExhausted
  | fuel + 1, locatedPoints, point, univ, config =>
    if locatedPoints.isEmpty then .ok (locatedPoints ++ [point])
    else
      let effectiveRadius := config.radius * config.scale
      let circumference := 2 * jsPI * univ.r
      let requiredCircumference := 2 * effectiveRadius * ((locatedPoints.length : ℚ) + 2)
      if circumference - requiredCircumference ≤ 0 then
        .error .unresolvedPlanetCollision
      else
        let sorted := List.insertionSort (fun a b : LocatedPoint => a.angle ≤ b.angle) locatedPoints
        match splitFirstCollision point sorted with
        | some (before, collided, after) =>
          let nudged := placePointsInCollision collided point
          let pos1 := getPointPosition τ univ.cx univ.cy univ.r nudged.1.angle
            (config.shiftInDegrees.getD 0)
          let q1 := { nudged.1 with x := pos1.1, y := pos1.2 }
          let pos2 := getPointPosition τ univ.cx univ.cy univ.r nudged.2.angle
            (config.shiftInDegrees.getD 0)
          let q2 := { nudged.2 with x := pos2.1, y := pos2.2 }
          match assemble τ fuel (before ++ after) q1 univ config with
          | .error e => .error e
          | .ok l1 =>
            match assemble τ fuel l1 q2 univ config with
            | .error e => .error e
            | .ok l2 => .ok (List.insertionSort (fun a b : LocatedPoint => a.angle ≤ b.angle) l2)
        | none =>
          .ok (List.insertionSort (fun a b : LocatedPoint => a.angle ≤ b.angle) (sorted ++ [point]))

/-- Item shape required by the generic resolveCollisions: an id and a
longitude (the remaining fields of the generic record ride along unchanged
and are not observable by the resolver). -/
structure CollisionItem where
  id : String
  lon : ℚ
deriving DecidableEq

/-- Conversion of items to LocatedPoint format inside resolveCollisions. -/
def mkLocatedPoints (τ : TrigModel) (items : List CollisionItem) (radius : ℚ)
    (config : CollisionConfig) : List LocatedPoint :=
  items.map (fun item =>
    let angle := item.lon
    let position := getPointPosition τ 0 0 radius angle (config.shiftInDegrees.getD 0)
    { id := item.id, x := position.1, y := position.2, r := config.radius * config.scale,
      angle := angle, originalAngle := angle, pointer := some angle })

/-- Loop of resolveCollisions pushing every located point through assemble. -/
def resolvedLocatedPoints (τ : TrigModel) (fuel : ℕ) (items : List CollisionItem) (radius : ℚ)
    (config : CollisionConfig) : Except CollisionError (List LocatedPoint) :=
  (mkLocatedPoints τ items radius config).foldlM
    (fun acc point => assemble τ fuel acc point { cx := 0, cy := 0, r := radius } config) []

/-- JavaScript Map built from the items keyed by id (later entries win). -/
def itemRecord (items : List CollisionItem) : List (String × CollisionItem) :=
  items.foldl (fun m it => recordSet m it.id it) []

/-- itemMap.get with the non-null assertion of the source; a missing key
falls back to a dummy item carrying the requested id. -/
def itemMapGet (items : List CollisionItem) (pointId : String) : CollisionItem :=
  (((itemRecord items).find? (fun kv => kv.1 == pointId)).map (fun kv => kv.2)).getD
    { id := pointId, lon := 0 }

/-- resolveCollisions: apply collision detection to an array of items,
returning each item together with its optional displayAngle (emitted only
when the resolved angle differs from the original longitude by more than
0.01 degrees). -/
def resolveCollisions (τ : TrigModel) (fuel : ℕ) (items : List CollisionItem) (radius : ℚ)
    (config : CollisionConfig) : Except CollisionError (List (CollisionItem × Option ℚ)) :=
  if !config.enabled || items.isEmpty then .ok (items.map (fun it => (it, none)))
  else
    match resolvedLocatedPoints τ fuel items radius config with
    | .error e => .error e
    | .ok resolvedPoints =>
      .ok (resolvedPoints.map (fun point =>
        (itemMapGet items point.id,
         if |point.angle - point.originalAngle| > 1/100 then some point.angle else none)))

/-! ## Claim theorems about the collision resolver -/

/-- C2: for every insertion into a non-empty working list, assemble first
compares the ring circumference 2 pi r against the required even-spacing
circumference 2 (radius scale) (count + 2) with count the number of points
already placed, and whenever the circumference does not exceed the
requirement it aborts with the fatal unresolved planet collision error
regardless of the point being inserted. -/
theorem assemble_circumference_gate (τ : TrigModel) (fuel : ℕ)
    (locatedPoints : List LocatedPoint) (point : LocatedPoint) (univ : Universe)
    (config : CollisionConfig) (hne : locatedPoints ≠ [])
    (hle : 2 * jsPI * univ.r ≤
      2 * (config.radius * config.scale) * ((locatedPoints.length : ℚ) + 2)) :
    assemble τ (fuel + 1) locatedPoints point univ config =
      .error .unresolvedPlanetCollision := by
  rw [assemble]
  rw [if_neg (fun h => hne (List.isEmpty_iff.mp h))]
  dsimp only
  rw [if_pos (by linarith)]

/-- Trigonometric model used by concrete witnesses. -/
def unitTrig : TrigModel := { cos := fun _ => 1, sin := fun _ => 0 }

/-- Concrete point for the collision witnesses. -/
def witnessPoint : LocatedPoint :=
  { id := "p1", x := 1, y := 0, r := 10, angle := 0, originalAngle := 0, pointer := none }

/-- Concrete collision configuration for the witnesses. -/
def witnessConfig : CollisionConfig :=
  { enabled := true, radius := 10, scale := 1, debug := none, shiftInDegrees := none }

/-- Witness for the C2 gate: one point already placed on a circle of radius
1 with effective symbol radius 10 makes the required circumference 60 exceed
the actual circumference 2 pi, so the insertion aborts. -/
theorem assemble_circumference_gate_witness :
    assemble unitTrig 1 [witnessPoint] witnessPoint { cx := 0, cy := 0, r := 1 } witnessConfig =
      .error .unresolvedPlanetCollision :=
  assemble_circumference_gate unitTrig 0 [witnessPoint] witnessPoint
    { cx := 0, cy := 0, r := 1 } witnessConfig (by simp)
    (by norm_num [jsPI, witnessConfig])

lemma isCollision_symm (p q : LocatedPoint) : isCollision p q = isCollision q p := by
  simp only [isCollision]
  rw [decide_eq_decide]
  have key : ∀ a b : LocatedPoint,
      (0 ≤ a.r + b.r ∧ (a.x - b.x) * (a.x - b.x) + (a.y - b.y) * (a.y - b.y)
          ≤ (a.r + b.r) * (a.r + b.r)) →
      (0 ≤ b.r + a.r ∧ (b.x - a.x) * (b.x - a.x) + (b.y - a.y) * (b.y - a.y)
          ≤ (b.r + a.r) * (b.r + a.r)) := by
    rintro a b ⟨h1, h2⟩
    refine ⟨by linarith, ?_⟩
    have e1 : (b.x - a.x) * (b.x - a.x) = (a.x - b.x) * (a.x - b.x) := by ring
    have e2 : (b.y - a.y) * (b.y - a.y) = (a.y - b.y) * (a.y - b.y) := by ring
    have e3 : (b.r + a.r) * (b.r + a.r) = (a.r + b.r) * (a.r + b.r) := by ring
    rw [e1, e2, e3]
    exact h2
  exact ⟨key p q, key q p⟩

/-- Pairwise separation: no two points of the list collide. -/
def pairwiseSeparated (l : List LocatedPoint) : Prop :=
  l.Pairwise (fun p q => isCollision p q = false)

lemma noCollide_symmetric : Symmetric (fun p q : LocatedPoint => isCollision p q = false) := by
  intro p q h
  rw [isCollision_symm]
  exact h

lemma pairwiseSeparated_perm {l l' : List LocatedPoint} (hp : l.Perm l')
    (h : pairwiseSeparated l) : pairwiseSeparated l' :=
  (List.Perm.pairwise_iff (fun h12 => noCollide_symmetric h12) hp).mp h

lemma splitFirstCollision_eq_none_iff (point : LocatedPoint) :
    ∀ l : List LocatedPoint,
      splitFirstCollision point l = none ↔ ∀ q ∈ l, isCollision q point = false := by
  intro l
  induction l with
  | nil => simp [splitFirstCollision]
  | cons q rest ih =>
    simp only [splitFirstCollision]
    by_cases hq : isCollision q point = true
    · rw [if_pos hq]
      constructor
      · intro h; exact Option.noConfusion h
      · intro hall
        exact absurd (hall q (List.mem_cons_self q rest)) (by simp [hq])
    · rw [if_neg hq]
      have hqf : isCollision q point = false := by
        cases hqq : isCollision q point
        · rfl
        · exact absurd hqq hq
      rw [Option.map_eq_none', ih]
      constructor
      · intro hrest q' hq'
        rcases List.mem_cons.mp hq' with rfl | hmem
        · exact hqf
        · exact hrest q' hmem
      · intro hall q' hq'
        exact hall q' (List.mem_cons_of_mem q hq')

lemma splitFirstCollision_some_eq (point : LocatedPoint) :
    ∀ (l before : List LocatedPoint) (c : LocatedPoint) (after : List LocatedPoint),
      splitFirstCollision point l = some (before, c, after) → l = before ++ c :: after := by
  intro l
  induction l with
  | nil => intro b c a h; exact Option.noConfusion h
  | cons q rest ih =>
    intro b c a h
    simp only [splitFirstCollision] at h
    by_cases hq : isCollision q point
    · rw [if_pos hq] at h
      simp only [Option.some.injEq, Prod.mk.injEq] at h
      obtain ⟨hb, hc, ha⟩ := h
      subst hb; subst hc; subst ha
      rfl
    · rw [if_neg hq] at h
      rcases hs : splitFirstCollision point rest with _ | bca
      · rw [hs] at h; exact Option.noConfusion h
      · rw [hs] at h
        simp only [Option.map_some', Option.some.injEq] at h
        obtain ⟨b', c', a'⟩ := bca
        simp only [Prod.mk.injEq] at h
        obtain ⟨hb, hc, ha⟩ := h
        subst hb; subst hc; subst ha
        simp [ih b' c' a' hs]

lemma assemble_pairwise (τ : TrigModel) (univ : Universe) (config : CollisionConfig) :
    ∀ (fuel : ℕ) (pts : List LocatedPoint) (p : LocatedPoint) (res : List LocatedPoint),
      assemble τ fuel pts p univ config = .ok res →
      pairwiseSeparated pts → pairwiseSeparated res := by
  intro fuel
  induction fuel with
  | zero =>
    intro pts p res h _
    exact absurd h (by simp [assemble])
  | succ n ih =>
    intro pts p res h hpw
    rw [assemble] at h
    split at h
    · next hemp =>
      simp only [Except.ok.injEq] at h
      subst h
      have h0 : pts = [] := List.isEmpty_iff.mp hemp
      subst h0
      simp [pairwiseSeparated]
    · next hemp =>
      dsimp only at h
      split at h
      · exact Except.noConfusion h
      · next hgate =>
        have hsortpw : pairwiseSeparated
            (List.insertionSort (fun a b : LocatedPoint => a.angle ≤ b.angle) pts) :=
          pairwiseSeparated_perm (List.perm_insertionSort _ _).symm hpw
        split at h
        · next before collided after hsplit =>
          split at h
          · exact Except.noConfusion h
          · next l1 h1 =>
            split at h
            · exact Except.noConfusion h
            · next l2 h2 =>
              simp only [Except.ok.injEq] at h
              subst h
              have hl : List.insertionSort (fun a b : LocatedPoint => a.angle ≤ b.angle) pts
                  = before ++ collided :: after :=
                splitFirstCollision_some_eq p _ before collided after hsplit
              have hrest : pairwiseSeparated (before ++ after) := by
                have hsub : (before ++ after).Sublist (before ++ collided :: after) :=
                  List.Sublist.append_left (List.sublist_cons_self collided after) before
                exact List.Pairwise.sublist hsub (hl ▸ hsortpw)
              exact pairwiseSeparated_perm (List.perm_insertionSort _ _).symm
                (ih l1 _ l2 h2 (ih (before ++ after) _ l1 h1 hrest))
        · next hsplit =>
          simp only [Except.ok.injEq] at h
          subst h
          apply pairwiseSeparated_perm (List.perm_insertionSort _ _).symm
          unfold pairwiseSeparated
          rw [List.pairwise_append]
          refine ⟨hsortpw, by simp, ?_⟩
          intro a ha b hb
          simp only [List.mem_singleton] at hb
          subst hb
          exact (splitFirstCollision_eq_none_iff _ _).mp hsplit a ha

lemma assemble_mem_invariant (τ : TrigModel) (univ : Universe) (config : CollisionConfig)
    (P : LocatedPoint → Prop)
    (hstable : ∀ q q' : LocatedPoint, q'.id = q.id → q'.r = q.r →
      q'.originalAngle = q.originalAngle → q'.pointer = q.pointer → P q → P q') :
    ∀ (fuel : ℕ) (pts : List LocatedPoint) (p : LocatedPoint) (res : List LocatedPoint),
      assemble τ fuel pts p univ config = .ok res →
      (∀ q ∈ pts, P q) → P p → ∀ q ∈ res, P q := by
  intro fuel
  induction fuel with
  | zero =>
    intro pts p res h _ _
    exact absurd h (by simp [assemble])
  | succ n ih =>
    intro pts p res h hpts hp
    rw [assemble] at h
    split at h
    · simp only [Except.ok.injEq] at h
      subst h
      intro q hq
      rcases List.mem_append.mp hq with hq | hq
      · exact hpts q hq
      · simp only [List.mem_singleton] at hq
        subst hq
        exact hp
    · next hemp =>
      dsimp only at h
      split at h
      · exact Except.noConfusion h
      · next hgate =>
        have hsorted : ∀ q ∈ List.insertionSort
            (fun a b : LocatedPoint => a.angle ≤ b.angle) pts, P q := by
          intro q hq
          exact hpts q ((List.perm_insertionSort _ _).mem_iff.mp hq)
        split at h
        · next before collided after hsplit =>
          split at h
          · exact Except.noConfusion h
          · next l1 h1 =>
            split at h
            · exact Except.noConfusion h
            · next l2 h2 =>
              simp only [Except.ok.injEq] at h
              subst h
              have hl : List.insertionSort (fun a b : LocatedPoint => a.angle ≤ b.angle) pts
                  = before ++ collided :: after :=
                splitFirstCollision_some_eq _ _ before collided after hsplit
              have hcollided : P collided := by
                apply hsorted
                rw [hl]
                exact List.mem_append.mpr (Or.inr (List.mem_cons_self _ _))
              have hrest : ∀ q ∈ before ++ after, P q := by
                intro q hq
                apply hsorted
                rw [hl]
                rcases List.mem_append.mp hq with hq | hq
                · exact List.mem_append.mpr (Or.inl hq)
                · exact List.mem_append.mpr (Or.inr (List.mem_cons_of_mem _ hq))
              intro q hq
              have hq' := (List.perm_insertionSort _ _).mem_iff.mp hq
              refine ih l1 _ l2 h2 ?_ ?_ q hq'
              · refine ih (before ++ after) _ l1 h1 hrest ?_
                exact hstable collided _ rfl rfl rfl rfl hcollided
              · exact hstable p _ rfl rfl rfl rfl hp
        · simp only [Except.ok.injEq] at h
          subst h
          intro q hq
          have hq2 := (List.perm_insertionSort _ _).mem_iff.mp hq
          rcases List.mem_append.mp hq2 with hq3 | hq3
          · exact hsorted q hq3
          · simp only [List.mem_singleton] at hq3
            subst hq3
            exact hp

lemma assemble_separated_perm (τ : TrigModel) (univ : Universe) (config : CollisionConfig)
    (fuel : ℕ) (pts : List LocatedPoint) (p : LocatedPoint) (res : List LocatedPoint)
    (h : assemble τ fuel pts p univ config = .ok res)
    (hsep : ∀ q ∈ pts, isCollision q p = false) :
    res.Perm (pts ++ [p]) := by
  cases fuel with
  | zero => exact absurd h (by simp [assemble])
  | succ n =>
    rw [assemble] at h
    split at h
    · simp only [Except.ok.injEq] at h
      subst h
      exact List.Perm.refl _
    · next hemp =>
      dsimp only at h
      split at h
      · exact Except.noConfusion h
      · next hgate =>
        have hnone : splitFirstCollision p
            (List.insertionSort (fun a b : LocatedPoint => a.angle ≤ b.angle) pts) = none := by
          rw [splitFirstCollision_eq_none_iff]
          intro q hq
          exact hsep q ((List.perm_insertionSort _ _).mem_iff.mp hq)
        split at h
        · next before collided after hsplit =>
          rw [hnone] at hsplit
          exact Option.noConfusion hsplit
        · simp only [Except.ok.injEq] at h
          subst h
          exact (List.perm_insertionSort _ _).trans
            ((List.perm_insertionSort _ _).append_right [p])

lemma foldlM_assemble_pairwise (τ : TrigModel) (univ : Universe) (config : CollisionConfig)
    (fuel : ℕ) :
    ∀ (l acc res : List LocatedPoint),
      l.foldlM (fun acc point => assemble τ fuel acc point univ config) acc = .ok res →
      pairwiseSeparated acc → pairwiseSeparated res := by
  intro l
  induction l with
  | nil =>
    intro acc res h hacc
    simp only [List.foldlM_nil] at h
    cases h
    exact hacc
  | cons p rest ih =>
    intro acc res h hacc
    rw [List.foldlM_cons] at h
    rcases h1 : assemble τ fuel acc p univ config with e | acc'
    · rw [h1] at h
      exact Except.noConfusion h
    · rw [h1] at h
      exact ih acc' res h (assemble_pairwise τ univ config fuel acc p acc' h1 hacc)

lemma foldlM_assemble_mem (τ : TrigModel) (univ : Universe) (config : CollisionConfig)
    (fuel : ℕ) (P : LocatedPoint → Prop)
    (hstable : ∀ q q' : LocatedPoint, q'.id = q.id → q'.r = q.r →
      q'.originalAngle = q.originalAngle → q'.pointer = q.pointer → P q → P q') :
    ∀ (l acc res : List LocatedPoint),
      l.foldlM (fun acc point => assemble τ fuel acc point univ config) acc = .ok res →
      (∀ q ∈ acc, P q) → (∀ q ∈ l, P q) → ∀ q ∈ res, P q := by
  intro l
  induction l with
  | nil =>
    intro acc res h hacc _
    simp only [List.foldlM_nil] at h
    cases h
    exact hacc
  | cons p rest ih =>
    intro acc res h hacc hl
    rw [List.foldlM_cons] at h
    rcases h1 : assemble τ fuel acc p univ config with e | acc'
    · rw [h1] at h
      exact Except.noConfusion h
    · rw [h1] at h
      refine ih acc' res h ?_ ?_
      · exact assemble_mem_invariant τ univ config P hstable fuel acc p acc' h1 hacc
          (hl p (List.mem_cons_self _ _))
      · intro q hq
        exact hl q (List.mem_cons_of_mem _ hq)

lemma foldlM_assemble_insert_all (τ : TrigModel) (univ : Universe) (config : CollisionConfig)
    (fuel : ℕ) :
    ∀ (l acc res : List LocatedPoint),
      l.foldlM (fun acc point => assemble τ fuel acc point univ config) acc = .ok res →
      (∀ p ∈ l, ∀ q ∈ acc, isCollision q p = false) →
      l.Pairwise (fun a b => isCollision a b = false) →
      res.Perm (acc ++ l) := by
  intro l
  induction l with
  | nil =>
    intro acc res h _ _
    simp only [List.foldlM_nil] at h
    cases h
    simp
  | cons p rest ih =>
    intro acc res h hcross hpw
    rw [List.foldlM_cons] at h
    rcases h1 : assemble τ fuel acc p univ config with e | acc'
    · rw [h1] at h
      exact Except.noConfusion h
    · rw [h1] at h
      have hperm : acc'.Perm (acc ++ [p]) :=
        assemble_separated_perm τ univ config fuel acc p acc' h1
          (fun q hq => hcross p (List.mem_cons_self _ _) q hq)
      have hcross' : ∀ p' ∈ rest, ∀ q ∈ acc', isCollision q p' = false := by
        intro p' hp' q hq
        rcases List.mem_append.mp (hperm.mem_iff.mp hq) with hq2 | hq2
        · exact hcross p' (List.mem_cons_of_mem _ hp') q hq2
        · simp only [List.mem_singleton] at hq2
          subst hq2
          exact (List.pairwise_cons.mp hpw).1 p' hp'
      have hres : res.Perm (acc' ++ rest) :=
        ih acc' res h hcross' (List.pairwise_cons.mp hpw).2
      have hfin : ((acc ++ [p]) ++ rest).Perm (acc ++ p :: rest) := by
        rw [List.append_assoc]
        exact List.Perm.refl _
      exact hres.trans ((hperm.append_right rest).trans hfin)

/-- C3: whenever the collision-resolution core of resolveCollisions succeeds
(the fold of assemble over the located points, invoked by resolveCollisions
exactly when collision handling is enabled on a non-empty item list), every
pair of distinct resolved points satisfies the separation invariant: the
squared Euclidean distance between their centers is at least the squared sum
of their footprint radii; with a nonnegative effective radius both sides are
squares of nonnegative quantities, so the distance is at least the sum of
the radii. -/
theorem resolveCollisions_separation (τ : TrigModel) (fuel : ℕ) (items : List CollisionItem)
    (radius : ℚ) (config : CollisionConfig) (pts : List LocatedPoint)
    (heff : 0 ≤ config.radius * config.scale)
    (hok : resolvedLocatedPoints τ fuel items radius config = .ok pts) :
    pts.Pairwise (fun p q =>
      (p.r + q.r) * (p.r + q.r) ≤ (p.x - q.x) * (p.x - q.x) + (p.y - q.y) * (p.y - q.y)) := by
  unfold resolvedLocatedPoints at hok
  have hpw : pairwiseSeparated pts :=
    foldlM_assemble_pairwise τ _ config fuel _ [] pts hok (by simp [pairwiseSeparated])
  have hr : ∀ q ∈ pts, q.r = config.radius * config.scale := by
    refine foldlM_assemble_mem τ _ config fuel (fun q => q.r = config.radius * config.scale)
      ?_ _ [] pts hok (by simp) ?_
    · intro q q' _ hrq _ _ hq
      rw [hrq]
      exact hq
    · intro q hq
      unfold mkLocatedPoints at hq
      rw [List.mem_map] at hq
      obtain ⟨item, -, hitem⟩ := hq
      subst hitem
      rfl
  refine hpw.imp_of_mem ?_
  intro a b ha hb hab
  simp only [isCollision] at hab
  rw [decide_eq_false_iff_not] at hab
  push_neg at hab
  have htot : 0 ≤ a.r + b.r := by
    rw [hr a ha, hr b hb]
    linarith
  exact le_of_lt (hab htot)

/-- Concrete item for the collision witnesses. -/
def witnessItem : CollisionItem := { id := "p1", lon := 0 }

/-- Located point produced for witnessItem on a circle of radius 100 under
unitTrig. -/
def witnessResolvedPoint : LocatedPoint :=
  { id := "p1", x := 100, y := 0, r := 10, angle := 0, originalAngle := 0, pointer := some 0 }

/-- Witness for the C3 separation invariant on a concrete successful run. -/
theorem resolveCollisions_separation_witness :
    List.Pairwise (fun p q : LocatedPoint =>
      (p.r + q.r) * (p.r + q.r) ≤ (p.x - q.x) * (p.x - q.x) + (p.y - q.y) * (p.y - q.y))
      [witnessResolvedPoint] :=
  resolveCollisions_separation unitTrig 1 [witnessItem] 100 witnessConfig [witnessResolvedPoint]
    (by norm_num [witnessConfig])
    (by norm_num [resolvedLocatedPoints, mkLocatedPoints, getPointPosition, unitTrig,
      witnessItem, witnessConfig, witnessResolvedPoint, assemble, List.foldlM])

lemma recordSet_forall_mem {α : Type} (Q : String × α → Prop) (m : List (String × α))
    (k : String) (v : α) (hm : ∀ kv ∈ m, Q kv) (hv : Q (k, v)) :
    ∀ kv ∈ recordSet m k v, Q kv := by
  intro kv hkv
  unfold recordSet at hkv
  split at hkv
  · rw [List.mem_map] at hkv
    obtain ⟨kv', hkv', heq⟩ := hkv
    by_cases hk : kv'.1 == k
    · rw [if_pos hk] at heq
      subst heq
      exact hv
    · rw [if_neg hk] at heq
      subst heq
      exact hm _ hkv'
  · rcases List.mem_append.mp hkv with hkv | hkv
    · exact hm _ hkv
    · simp only [List.mem_singleton] at hkv
      subst hkv
      exact hv

lemma recordSet_hasKey {α : Type} (m : List (String × α)) (k k0 : String) (v : α)
    (h : (∃ kv ∈ m, kv.1 = k0) ∨ k0 = k) :
    ∃ kv ∈ recordSet m k v, kv.1 = k0 := by
  unfold recordSet
  split
  · next hany =>
    rcases h with ⟨kv0, hkv0, hk0⟩ | rfl
    · by_cases hkk : kv0.1 == k
      · refine ⟨(k, v), List.mem_map.mpr ⟨kv0, hkv0, by rw [if_pos hkk]⟩, ?_⟩
        have hke : kv0.1 = k := by simpa using hkk
        rw [← hke]
        exact hk0
      · exact ⟨kv0, List.mem_map.mpr ⟨kv0, hkv0, by rw [if_neg hkk]⟩, hk0⟩
    · rw [List.any_eq_true] at hany
      obtain ⟨kv1, hkv1, hbeq⟩ := hany
      exact ⟨(k0, v), List.mem_map.mpr ⟨kv1, hkv1, by rw [if_pos hbeq]⟩, rfl⟩
  · rcases h with ⟨kv0, hkv0, hk0⟩ | rfl
    · exact ⟨kv0, List.mem_append.mpr (Or.inl hkv0), hk0⟩
    · exact ⟨(k0, v), List.mem_append.mpr (Or.inr (List.mem_singleton.mpr rfl)), rfl⟩

lemma foldl_itemRecord_hasKey :
    ∀ (l : List CollisionItem) (acc : List (String × CollisionItem)) (k0 : String),
      ((∃ kv ∈ acc, kv.1 = k0) ∨ ∃ it ∈ l, it.id = k0) →
      ∃ kv ∈ l.foldl (fun m it => recordSet m it.id it) acc, kv.1 = k0 := by
  intro l
  induction l with
  | nil =>
    intro acc k0 h
    rcases h with h | ⟨it, hit, -⟩
    · exact h
    · exact absurd hit (by simp)
  | cons x xs ih =>
    intro acc k0 h
    apply ih
    rcases h with h | ⟨it, hit, hid⟩
    · exact Or.inl (recordSet_hasKey acc x.id k0 x (Or.inl h))
    · rcases List.mem_cons.mp hit with rfl | hmem
      · exact Or.inl (recordSet_hasKey acc it.id k0 it (Or.inr hid.symm))
      · exact Or.inr ⟨it, hmem, hid⟩

lemma foldl_itemRecord_forall (Q : String × CollisionItem → Prop) :
    ∀ (l : List CollisionItem) (acc : List (String × CollisionItem)),
      (∀ kv ∈ acc, Q kv) → (∀ it ∈ l, Q (it.id, it)) →
      ∀ kv ∈ l.foldl (fun m it => recordSet m it.id it) acc, Q kv := by
  intro l
  induction l with
  | nil => intro acc hacc _; exact hacc
  | cons x xs ih =>
    intro acc hacc hl
    exact ih _ (recordSet_forall_mem Q acc x.id x hacc (hl x (List.mem_cons_self _ _)))
      (fun it hit => hl it (List.mem_cons_of_mem _ hit))

lemma itemMapGet_spec (items : List CollisionItem) (k0 : String)
    (h : ∃ it ∈ items, it.id = k0) :
    itemMapGet items k0 ∈ items ∧ (itemMapGet items k0).id = k0 := by
  unfold itemMapGet
  obtain ⟨kv, hkv, hk⟩ := foldl_itemRecord_hasKey items [] k0 (Or.inr h)
  rcases hfind : (itemRecord items).find? (fun kv => kv.1 == k0) with _ | kv'
  · exfalso
    have hnone := List.find?_eq_none.mp hfind kv hkv
    simp [hk] at hnone
  · rw [hfind]
    have hmem := List.mem_of_find?_eq_some hfind
    have hpred := List.find?_some hfind
    have hvals := foldl_itemRecord_forall (fun kv => kv.2 ∈ items ∧ kv.2.id = kv.1) items []
      (by simp) (fun it _ => ⟨by assumption, rfl⟩) kv' hmem
    have hk' : kv'.1 = k0 := by simpa using hpred
    simp only [Option.map_some', Option.getD_some]
    exact ⟨hvals.1, by rw [hvals.2, hk']⟩

/-- C7: when collision resolution returns on an input whose located points
are pairwise separated by more than the collision diameter (no pair
collides), every returned item is one of the input items with no
displayAngle override and the item count is preserved; and in general a
displayAngle is emitted for an item only when the absolute adjustment from
the original longitude of the item with that id exceeds 0.01 degrees. -/
theorem resolveCollisions_idempotent_and_threshold :
    (∀ (τ : TrigModel) (fuel : ℕ) (items : List CollisionItem) (radius : ℚ)
        (config : CollisionConfig) (res : List (CollisionItem × Option ℚ)),
      (mkLocatedPoints τ items radius config).Pairwise
        (fun p q => isCollision p q = false) →
      resolveCollisions τ fuel items radius config = .ok res →
      (∀ o ∈ res, o.2 = none ∧ o.1 ∈ items) ∧ res.length = items.length) ∧
    (∀ (τ : TrigModel) (fuel : ℕ) (items : List CollisionItem) (radius : ℚ)
        (config : CollisionConfig) (res : List (CollisionItem × Option ℚ)),
      resolveCollisions τ fuel items radius config = .ok res →
      ∀ o ∈ res, ∀ a : ℚ, o.2 = some a →
        ∃ it ∈ items, it.id = o.1.id ∧ |a - it.lon| > 1/100) := by
  constructor
  · intro τ fuel items radius config res hsep hok
    unfold resolveCollisions at hok
    split at hok
    · simp only [Except.ok.injEq] at hok
      subst hok
      constructor
      · intro o ho
        rw [List.mem_map] at ho
        obtain ⟨it, hit, heq⟩ := ho
        subst heq
        exact ⟨rfl, hit⟩
      · simp
    · split at hok
      · exact Except.noConfusion hok
      · next pts hpts =>
        simp only [Except.ok.injEq] at hok
        subst hok
        unfold resolvedLocatedPoints at hpts
        have hperm : pts.Perm ([] ++ mkLocatedPoints τ items radius config) :=
          foldlM_assemble_insert_all τ _ config fuel (mkLocatedPoints τ items radius config)
            [] pts hpts (by simp) hsep
        rw [List.nil_append] at hperm
        constructor
        · intro o ho
          rw [List.mem_map] at ho
          obtain ⟨point, hpoint, heq⟩ := ho
          subst heq
          have hpl : point ∈ mkLocatedPoints τ items radius config :=
            hperm.mem_iff.mp hpoint
          unfold mkLocatedPoints at hpl
          rw [List.mem_map] at hpl
          obtain ⟨item, hitem, heq2⟩ := hpl
          subst heq2
          constructor
          · simp
          · exact (itemMapGet_spec items _ ⟨item, hitem, rfl⟩).1
        · rw [List.length_map, hperm.length_eq]
          unfold mkLocatedPoints
          rw [List.length_map]
  · intro τ fuel items radius config res hok o ho a ha
    unfold resolveCollisions at hok
    split at hok
    · simp only [Except.ok.injEq] at hok
      subst hok
      rw [List.mem_map] at ho
      obtain ⟨it, -, heq⟩ := ho
      subst heq
      exact Option.noConfusion ha
    · split at hok
      · exact Except.noConfusion hok
      · next pts hpts =>
        simp only [Except.ok.injEq] at hok
        subst hok
        unfold resolvedLocatedPoints at hpts
        rw [List.mem_map] at ho
        obtain ⟨point, hpoint, heq⟩ := ho
        subst heq
        have horigin : ∀ q ∈ pts, ∃ it ∈ items, q.id = it.id ∧ q.originalAngle = it.lon := by
          refine foldlM_assemble_mem τ _ config fuel
            (fun q => ∃ it ∈ items, q.id = it.id ∧ q.originalAngle = it.lon) ?_
            (mkLocatedPoints τ items radius config) [] pts hpts (by simp) ?_
          · intro q q' hid _ horig _ hq
            obtain ⟨it, hit, h1, h2⟩ := hq
            exact ⟨it, hit, by rw [hid]; exact h1, by rw [horig]; exact h2⟩
          · intro q hq
            unfold mkLocatedPoints at hq
            rw [List.mem_map] at hq
            obtain ⟨item, hitem, heq2⟩ := hq
            subst heq2
            exact ⟨item, hitem, rfl, rfl⟩
        obtain ⟨it, hit, hid, horig⟩ := horigin point hpoint
        by_cases hcond : |point.angle - point.originalAngle| > 1/100
        · rw [if_pos hcond] at ha
          simp only [Option.some.injEq] at ha
          subst ha
          refine ⟨it, hit, ?_, ?_⟩
          · rw [(itemMapGet_spec items point.id ⟨it, hit, hid.symm⟩).2]
            exact hid.symm
          · rw [← horig]
            exact hcond
        · rw [if_neg hcond] at ha
          exact Option.noConfusion ha

/-- Witness for the C7 theorem: a single far-spaced item passes through
resolveCollisions unchanged with no displayAngle. -/
theorem resolveCollisions_idempotent_and_threshold_witness :
    (∀ o ∈ [(witnessItem, (none : Option ℚ))], o.2 = none ∧ o.1 ∈ [witnessItem]) ∧
    [(witnessItem, (none : Option ℚ))].length = [witnessItem].length :=
  resolveCollisions_idempotent_and_threshold.1 unitTrig 1 [witnessItem] 100 witnessConfig
    [(witnessItem, none)]
    (by simp [mkLocatedPoints, witnessItem, witnessConfig, unitTrig, getPointPosition])
    (by norm_num [resolveCollisions, resolvedLocatedPoints, mkLocatedPoints, getPointPosition,
      unitTrig, witnessItem, witnessConfig, assemble, List.foldlM, itemMapGet, itemRecord,
      recordSet, List.find?])

/-! ## Wheel assembler aspect ring construction (WheelAssembler.buildAspectItems) -/

/-- AspectSetFilter interface. -/
structure AspectSetFilter where
  includeTypes : Option (List String)
  minStrength : Option ℚ
  onlyMajor : Option Bool
deriving DecidableEq

/-- RingDataSource tagged union. -/
inductive RingDataSource where
  | staticZodiac
  | staticNakshatras
  | layerHouses (layerId : String)
  | layerPlanets (layerId : String)
  | layerVargaPlanets (layerId vargaId : String)
  | aspectSetSource (aspectSetId : String) (filter : Option AspectSetFilter)
deriving DecidableEq

/-- PlanetRingItem interface (displayAngle is added by collision
resolution). -/
structure PlanetRingItem where
  id : String
  planetId : String
  layerId : String
  lon : ℚ
  lat : Option ℚ
  speedLon : Option ℚ
  retrograde : Option Bool
  signIndex : Option ℤ
  signDegree : Option ℚ
  houseIndex : Option ℤ
  displayAngle : Option ℚ
deriving DecidableEq

/-- AspectRingEndpoint interface. -/
structure AspectRingEndpoint where
  layerId : String
  objectType : String
  objectId : String
  lon : ℚ
  ringId : String
  itemId : String
deriving DecidableEq

/-- AspectRingItem interface. -/
structure AspectRingItem where
  id : String
  aspectId : String
  aspectType : String
  orb : ℚ
  exactAngle : ℚ
  from_ : AspectRingEndpoint
  to_ : AspectRingEndpoint
deriving DecidableEq

/-- RingItemDTO union: sign segment, house cusp, planet point or aspect
link. -/
inductive RingItem where
  | sign (id : String) (index : Option ℤ) (label : String) (glyph : Option String)
      (startLon endLon : ℚ)
  | houseCusp (id : String) (houseIndex : ℤ) (lon : ℚ)
  | planet (p : PlanetRingItem)
  | aspect (a : AspectRingItem)
deriving DecidableEq

/-- RadiusBand interface. -/
structure RadiusBand where
  inner : ℚ
  outer : ℚ
deriving DecidableEq

/-- RingDTO interface. -/
structure RingDTO where
  id : String
  type : String
  label : String
  order : ℤ
  radius : RadiusBand
  dataSource : Option RingDataSource
  items : Option (List RingItem)
deriving DecidableEq

/-- Endpoint resolution (ring.items || []).find with the planet-kind and
planet-id test of buildAspectItems. -/
def findPlanetItem (items : List RingItem) (objectId : String) : Option PlanetRingItem :=
  items.findSome? (fun item =>
    match item with
    | .planet p => if p.planetId == objectId then some p else none
    | _ => none)

/-- Record of already-built planet rings keyed by layer id, as accumulated by
the first loop of buildAspectItems. -/
def planetRingsByLayerOf (existingRings : List RingDTO) : List (String × RingDTO) :=
  existingRings.foldl (fun m ring =>
    match ring.dataSource with
    | some (.layerPlanets lid) => recordSet m lid ring
    | _ => m) []

/-- The fixed major-aspect list of the onlyMajor filter. -/
def MAJOR_ASPECTS : List String :=
  ["conjunction", "opposition", "trine", "square", "sextile"]

/-- WheelAssembler.buildAspectItems: build aspect ring items linking to the
planet ring items of already-built rings; pairs whose type is filtered out or
whose endpoints cannot be resolved are silently dropped (the function is
total and never raises). -/
def buildAspectItems (slug : String) (aspectSet : AspectSet)
    (positionsByLayer : List (String × LayerPositions)) (existingRings : List RingDTO)
    (filterConfig : AspectSetFilter) : List AspectRingItem :=
  let planetRingsByLayer := planetRingsByLayerOf existingRings
  let onlyMajor := filterConfig.onlyMajor.getD false
  let includeTypes := filterConfig.includeTypes
  aspectSet.pairs.filterMap (fun pair =>
    let aspectType := pair.aspect.type
    if (match includeTypes with
        | some l => !(l.contains aspectType)
        | none => false) then none
    else if onlyMajor && !(MAJOR_ASPECTS.contains aspectType) then none
    else
      match (planetRingsByLayer.find? (fun kv => kv.1 == pair.from_.layerId)).map
              (fun kv => kv.2),
            (planetRingsByLayer.find? (fun kv => kv.1 == pair.to_.layerId)).map
              (fun kv => kv.2) with
      | some fromRing, some toRing =>
        match findPlanetItem (fromRing.items.getD []) pair.from_.objectId,
              findPlanetItem (toRing.items.getD []) pair.to_.objectId with
        | some fromItem, some toItem =>
          let aspectId := pair.from_.layerId ++ "_" ++ pair.from_.objectId ++ "_"
            ++ pair.to_.layerId ++ "_" ++ pair.to_.objectId ++ "_" ++ aspectType
          some { id := slug ++ "_aspect_" ++ aspectId
                 aspectId := aspectId
                 aspectType := aspectType
                 orb := pair.aspect.orb
                 exactAngle := pair.aspect.exactAngle
                 from_ := { layerId := pair.from_.layerId, objectType := pair.from_.objectType,
                            objectId := pair.from_.objectId, lon := fromItem.lon,
                            ringId := fromRing.id, itemId := fromItem.id }
                 to_ := { layerId := pair.to_.layerId, objectType := pair.to_.objectType,
                          objectId := pair.to_.objectId, lon := toItem.lon,
                          ringId := toRing.id, itemId := toItem.id } }
        | _, _ => none
      | _, _ => none)

lemma planetRingsByLayerOf_values (existingRings : List RingDTO) :
    ∀ kv ∈ planetRingsByLayerOf existingRings,
      kv.2 ∈ existingRings ∧ kv.2.dataSource = some (.layerPlanets kv.1) := by
  unfold planetRingsByLayerOf
  suffices hgen : ∀ (l : List RingDTO) (acc : List (String × RingDTO)),
      (∀ r ∈ l, r ∈ existingRings) →
      (∀ kv ∈ acc, kv.2 ∈ existingRings ∧ kv.2.dataSource = some (.layerPlanets kv.1)) →
      ∀ kv ∈ l.foldl (fun m ring =>
        match ring.dataSource with
        | some (.layerPlanets lid) => recordSet m lid ring
        | _ => m) acc,
        kv.2 ∈ existingRings ∧ kv.2.dataSource = some (.layerPlanets kv.1) by
    exact hgen existingRings [] (fun r hr => hr) (by simp)
  intro l
  induction l with
  | nil => intro acc _ hacc; exact hacc
  | cons ring rest ih =>
    intro acc hl hacc
    rw [List.foldl_cons]
    have hring : ring ∈ existingRings := hl ring (List.mem_cons_self _ _)
    have hrest : ∀ r ∈ rest, r ∈ existingRings :=
      fun r hr => hl r (List.mem_cons_of_mem _ hr)
    rcases hds : ring.dataSource with _ | ds
    · simp only [hds]
      exact ih acc hrest hacc
    · cases ds with
      | layerPlanets lid =>
        simp only [hds]
        refine ih _ hrest ?_
        exact recordSet_forall_mem _ acc lid ring hacc ⟨hring, hds⟩
      | staticZodiac => simp only [hds]; exact ih acc hrest hacc
      | staticNakshatras => simp only [hds]; exact ih acc hrest hacc
      | layerHouses lid => simp only [hds]; exact ih acc hrest hacc
      | layerVargaPlanets lid vid => simp only [hds]; exact ih acc hrest hacc
      | aspectSetSource sid f => simp only [hds]; exact ih acc hrest hacc

lemma findPlanetItem_some (items : List RingItem) (objectId : String) (p : PlanetRingItem)
    (h : findPlanetItem items objectId = some p) :
    RingItem.planet p ∈ items ∧ p.planetId = objectId := by
  induction items with
  | nil => exact absurd h (by simp [findPlanetItem])
  | cons it rest ih =>
    rw [findPlanetItem, List.findSome?_cons] at h
    cases it with
    | planet q =>
      by_cases hq : q.planetId == objectId
      · simp only [hq, if_true] at h
        simp only [Option.some.injEq] at h
        subst h
        exact ⟨List.mem_cons_self _ _, by simpa using hq⟩
      · simp only [hq, if_false] at h
        have hres := ih h
        exact ⟨List.mem_cons_of_mem _ hres.1, hres.2⟩
    | sign i idx lab gl s e =>
      simp only at h
      have hres := ih h
      exact ⟨List.mem_cons_of_mem _ hres.1, hres.2⟩
    | houseCusp i hi lon =>
      simp only at h
      have hres := ih h
      exact ⟨List.mem_cons_of_mem _ hres.1, hres.2⟩
    | aspect a =>
      simp only at h
      have hres := ih h
      exact ⟨List.mem_cons_of_mem _ hres.1, hres.2⟩

/-- C9: buildAspectItems never raises (it is a total function returning at
most one item per aspect pair, unresolvable pairs being silently dropped),
and every emitted aspect ring item references, for each endpoint, the id of
an already-built planet ring of that layer together with the id of a planet
item existing inside that ring whose planetId is the referenced object. -/
theorem buildAspectItems_endpoints_resolved (slug : String) (aspectSet : AspectSet)
    (positionsByLayer : List (String × LayerPositions)) (existingRings : List RingDTO)
    (filterConfig : AspectSetFilter) :
    (buildAspectItems slug aspectSet positionsByLayer existingRings filterConfig).length
      ≤ aspectSet.pairs.length ∧
    ∀ item ∈ buildAspectItems slug aspectSet positionsByLayer existingRings filterConfig,
      (∃ ring ∈ existingRings, ring.dataSource = some (.layerPlanets item.from_.layerId) ∧
        ring.id = item.from_.ringId ∧
        ∃ p : PlanetRingItem, RingItem.planet p ∈ ring.items.getD [] ∧
          p.id = item.from_.itemId ∧ p.planetId = item.from_.objectId) ∧
      (∃ ring ∈ existingRings, ring.dataSource = some (.layerPlanets item.to_.layerId) ∧
        ring.id = item.to_.ringId ∧
        ∃ p : PlanetRingItem, RingItem.planet p ∈ ring.items.getD [] ∧
          p.id = item.to_.itemId ∧ p.planetId = item.to_.objectId) := by
  constructor
  · exact List.length_filterMap_le _ _
  · intro item hitem
    unfold buildAspectItems at hitem
    rw [List.mem_filterMap] at hitem
    obtain ⟨pair, -, hf⟩ := hitem
    dsimp only at hf
    split at hf
    · exact Option.noConfusion hf
    · split at hf
      · exact Option.noConfusion hf
      · split at hf
        · next fromRing toRing h1 h2 =>
          split at hf
          · next fromItem toItem h3 h4 =>
            simp only [Option.some.injEq] at hf
            subst hf
            obtain ⟨kvF, hkvF, hkvF2⟩ : ∃ kv, (planetRingsByLayerOf existingRings).find?
                (fun kv => kv.1 == pair.from_.layerId) = some kv ∧ kv.2 = fromRing := by
              rcases hfind : (planetRingsByLayerOf existingRings).find?
                  (fun kv => kv.1 == pair.from_.layerId) with _ | kv
              · rw [hfind] at h1; exact Option.noConfusion h1
              · rw [hfind] at h1
                simp only [Option.map_some', Option.some.injEq] at h1
                exact ⟨kv, hfind, h1⟩
            obtain ⟨kvT, hkvT, hkvT2⟩ : ∃ kv, (planetRingsByLayerOf existingRings).find?
                (fun kv => kv.1 == pair.to_.layerId) = some kv ∧ kv.2 = toRing := by
              rcases hfind : (planetRingsByLayerOf existingRings).find?
                  (fun kv => kv.1 == pair.to_.layerId) with _ | kv
              · rw [hfind] at h2; exact Option.noConfusion h2
              · rw [hfind] at h2
                simp only [Option.map_some', Option.some.injEq] at h2
                exact ⟨kv, hfind, h2⟩
            have hvF := planetRingsByLayerOf_values existingRings kvF
              (List.mem_of_find?_eq_some hkvF)
            have hvT := planetRingsByLayerOf_values existingRings kvT
              (List.mem_of_find?_eq_some hkvT)
            have hkF : kvF.1 = pair.from_.layerId := by
              simpa using List.find?_some hkvF
            have hkT : kvT.1 = pair.to_.layerId := by
              simpa using List.find?_some hkvT
            have hitemF := findPlanetItem_some (fromRing.items.getD [])
              pair.from_.objectId fromItem h3
            have hitemT := findPlanetItem_some (toRing.items.getD [])
              pair.to_.objectId toItem h4
            constructor
            · refine ⟨fromRing, ?_, ?_, rfl, fromItem, hitemF.1, rfl, hitemF.2⟩
              · rw [← hkvF2]; exact hvF.1
              · rw [← hkvF2, hvF.2, hkF]
            · refine ⟨toRing, ?_, ?_, rfl, toItem, hitemT.1, rfl, hitemT.2⟩
              · rw [← hkvT2]; exact hvT.1
              · rw [← hkvT2, hvT.2, hkT]
          · exact Option.noConfusion hf
        · exact Option.noConfusion hf

/-- Concrete planet ring items for the C9 witness. -/
def wSunItem : PlanetRingItem :=
  { id := "pr_sun", planetId := "sun", layerId := "natal", lon := 0, lat := none,
    speedLon := none, retrograde := none, signIndex := none, signDegree := none,
    houseIndex := none, displayAngle := none }

/-- Concrete moon planet ring item for the C9 witness. -/
def wMoonItem : PlanetRingItem :=
  { id := "pr_moon", planetId := "moon", layerId := "natal", lon := 120, lat := none,
    speedLon := none, retrograde := none, signIndex := none, signDegree := none,
    houseIndex := none, displayAngle := none }

/-- Concrete already-built planet ring for the C9 witness. -/
def wPlanetRing : RingDTO :=
  { id := "ring1", type := "planets", label := "Planets", order := 0,
    radius := { inner := 0, outer := 1 }, dataSource := some (.layerPlanets "natal"),
    items := some [.planet wSunItem, .planet wMoonItem] }

/-- Concrete aspect set for the C9 witness. -/
def wAspectSet : AspectSet :=
  { id := "natal", label := "Natal Aspects", kind := "intra_layer", layerIds := ["natal"],
    pairs := [sunMoonTrine] }

/-- Empty aspect set filter. -/
def wEmptyFilter : AspectSetFilter :=
  { includeTypes := none, minStrength := none, onlyMajor := none }

/-- Aspect ring item emitted for the witness configuration. -/
def wAspectRingItem : AspectRingItem :=
  { id := "a_aspect_natal_sun_natal_moon_trine", aspectId := "natal_sun_natal_moon_trine",
    aspectType := "trine", orb := 0, exactAngle := 120,
    from_ := { layerId := "natal", objectType := "planet", objectId := "sun", lon := 0,
               ringId := "ring1", itemId := "pr_sun" },
    to_ := { layerId := "natal", objectType := "planet", objectId := "moon", lon := 120,
             ringId := "ring1", itemId := "pr_moon" } }

/-- Witness for the C9 endpoint-resolution invariant on a concrete build. -/
theorem buildAspectItems_endpoints_resolved_witness :
    (∃ ring ∈ [wPlanetRing], ring.dataSource = some (.layerPlanets wAspectRingItem.from_.layerId) ∧
      ring.id = wAspectRingItem.from_.ringId ∧
      ∃ p : PlanetRingItem, RingItem.planet p ∈ ring.items.getD [] ∧
        p.id = wAspectRingItem.from_.itemId ∧ p.planetId = wAspectRingItem.from_.objectId) ∧
    (∃ ring ∈ [wPlanetRing], ring.dataSource = some (.layerPlanets wAspectRingItem.to_.layerId) ∧
      ring.id = wAspectRingItem.to_.ringId ∧
      ∃ p : PlanetRingItem, RingItem.planet p ∈ ring.items.getD [] ∧
        p.id = wAspectRingItem.to_.itemId ∧ p.planetId = wAspectRingItem.to_.objectId) :=
  (buildAspectItems_endpoints_resolved "a" wAspectSet [] [wPlanetRing] wEmptyFilter).2
    wAspectRingItem (by decide)
